import Mathlib

/-!
Verification of the Li (2002) bounding-surface elastoplasticity engine
(`src/org/k_nl.py`) against its natural-language specification.

The Python module is numerical (numpy floats); the shallow embedding below
renders floating-point arithmetic as real arithmetic, numpy 3x3 arrays as
`Matrix (Fin 3) (Fin 3) ℝ`, the 4th-order stiffness tensors (which the code
only ever uses through `np.reshape(E, (9, 9))`) as 9x9 matrices indexed by
`Fin 3 × Fin 3` (row-major flattening, so `A[(i,j),(k,l)] = E[i,j,k,l]`),
and `np.linalg.solve` as multiplication by the matrix inverse.  Mutation of
`self` and of a `StateParameters` object is rendered as explicit state
passing: every method returns the updated model and/or snapshot.  A Python
attribute that a branch leaves unset (and that would raise `AttributeError`
when read) is modelled as a field initialised to `0`.
-/

set_option maxHeartbeats 1600000
set_option maxRecDepth 16000

open scoped Classical

noncomputable section

/-- A 3x3 real matrix: the embedding of a numpy `(3,3)` array. -/
abbrev Mat3 := Matrix (Fin 3) (Fin 3) ℝ

/-- A 4th-order tensor stored, as the code always consumes it, as the 9x9
matrix of its row-major flattening: `T (i,j) (k,l) = E[i,j,k,l]`. -/
abbrev Tens4 := Matrix (Fin 3 × Fin 3) (Fin 3 × Fin 3) ℝ

/-- Row-major flattening `mat.flatten()` of a 3x3 matrix. -/
def matToVec (A : Mat3) : Fin 3 × Fin 3 → ℝ := fun ij => A ij.1 ij.2

/-- Inverse of `matToVec`: `np.reshape(x, (3,3))`. -/
def vecToMat (v : Fin 3 × Fin 3 → ℝ) : Mat3 := Matrix.of fun i j => v (i, j)

/-- Elementwise division of a matrix by a scalar, numpy's `A / s`. -/
def matDiv (A : Mat3) (s : ℝ) : Mat3 := Matrix.of fun i j => A i j / s

/-- numpy `np.power(A, 2).sum()`: the sum of the squared entries. -/
def sumSq (A : Mat3) : ℝ := ∑ i, ∑ j, (A i j) ^ 2

/-- numpy `np.linalg.norm(A)` for a 3x3 array: the Frobenius norm. -/
def npnorm (A : Mat3) : ℝ := Real.sqrt (sumSq A)

/-- numpy `np.einsum("ij,ij", A, B)`: the full double contraction. -/
def ddot (A B : Mat3) : ℝ := ∑ i, ∑ j, A i j * B i j

/-- numpy `np.trace`-style sum of the three normal components, as the code
writes it: `A[0,0] + A[1,1] + A[2,2]`. -/
def trace3 (A : Mat3) : ℝ := A 0 0 + A 1 1 + A 2 2

/-- `np.einsum("pq,kl->pqkl", A, B)` viewed through the 9x9 flattening:
the outer (dyadic) product of two flattened matrices. -/
def outer4 (A B : Mat3) : Tens4 := fun pq kl => A pq.1 pq.2 * B kl.1 kl.2

/-- Applying a 4th-order tensor to a 3x3 matrix: `np.reshape(E,(9,9)) @ x.flatten()`
reshaped back to 3x3. -/
def tensApply (E : Tens4) (x : Mat3) : Mat3 := vecToMat (E.mulVec (matToVec x))

/-- An idealised `scipy.optimize.brentq f a b`: some root of `f` in `[a, b]`
when one exists (the bracketed root-finder's defining property), junk
otherwise.  Which root, and the numerical tolerance, are abstracted away. -/
def brentq (f : ℝ → ℝ) (a b : ℝ) : ℝ :=
  if h : ∃ t, t ∈ Set.Icc a b ∧ f t = 0 then h.choose else a

/-- The `StateParameters` snapshot (constructor plus every attribute any of
the `Li2002` evaluation methods writes on it).  Fields below `dp` are the
attributes Python sets only later (or only on some branches); they start
at `0` in the embedding. -/
structure SP where
  strain : Mat3
  stress : Mat3
  dstrain : Mat3
  dstress : Mat3
  pmin : ℝ
  p : ℝ
  sij : Mat3
  rij : Mat3
  R : ℝ
  dp : ℝ
  elastic_flag1 : Bool
  elastic_flag2 : Bool
  rij_bar : Mat3
  R_bar : ℝ
  g_bar : ℝ
  rho1_ratio : ℝ
  p_bar : ℝ
  rho2_ratio : ℝ
  Ge : ℝ
  Ke : ℝ
  psi : ℝ
  g : ℝ
  h : ℝ
  Kp1 : ℝ
  Kp1_b : ℝ
  D1 : ℝ
  Kp2 : ℝ
  Kp2_b : ℝ
  D2 : ℝ
  B : ℝ
  nij : Mat3
  mij : Mat3
  Tij : Mat3
  Zij : Mat3
  Ep : Tens4

/-- `StateParameters.__init__`: stores (copies of) the four tensors, sets
`pmin = 1.0`, and runs `set_stress_variable` and `set_stress_increment`:
`p = tr σ / 3`, `sij = σ - p I`, `rij = sij / max(p, pmin)`,
`R = sqrt(1.5 Σ rij²)`, `dp = p(σ + dσ) - p`. -/
def SP.init (strain stress dstrain dstress : Mat3) (ef1 ef2 : Bool) : SP :=
  let p : ℝ := (stress 0 0 + stress 1 1 + stress 2 2) / 3
  let sij : Mat3 := stress - p • (1 : Mat3)
  let rij : Mat3 := matDiv sij (max p 1)
  let R : ℝ := Real.sqrt (1.5 * sumSq rij)
  let stress2 : Mat3 := stress + dstress
  let p2 : ℝ := (stress2 0 0 + stress2 1 1 + stress2 2 2) / 3
  { strain := strain, stress := stress, dstrain := dstrain, dstress := dstress
    pmin := 1, p := p, sij := sij, rij := rij, R := R, dp := p2 - p
    elastic_flag1 := ef1, elastic_flag2 := ef2
    rij_bar := 0, R_bar := 0, g_bar := 0, rho1_ratio := 0, p_bar := 0, rho2_ratio := 0
    Ge := 0, Ke := 0, psi := 0, g := 0, h := 0, Kp1 := 0, Kp1_b := 0, D1 := 0
    Kp2 := 0, Kp2_b := 0, D2 := 0, B := 0
    nij := 0, mij := 0, Tij := 0, Zij := 0, Ep := 0 }

/-- The constitutive constants `Li2002.__init__` stores on `self` (material
parameters plus `eps`, `pr`, `pmin`). -/
structure LiParams where
  G0 : ℝ
  nu : ℝ
  M : ℝ
  c : ℝ
  eg : ℝ
  rlambdac : ℝ
  xi : ℝ
  d1 : ℝ
  m : ℝ
  h1 : ℝ
  h2 : ℝ
  h3 : ℝ
  n : ℝ
  d2 : ℝ
  h4 : ℝ
  a : ℝ
  b1 : ℝ
  b2 : ℝ
  b3 : ℝ
  eps : ℝ
  pr : ℝ
  pmin : ℝ

/-- The default parameter values of `Li2002.__init__` (Toyoura sand). -/
def defaultParams : LiParams :=
  { G0 := 125, nu := 0.25, M := 1.25, c := 0.75, eg := 0.934, rlambdac := 0.019
    xi := 0.7, d1 := 0.41, m := 3.5, h1 := 3.15, h2 := 3.05, h3 := 2.2, n := 1.1
    d2 := 1, h4 := 3.5, a := 1, b1 := 0.005, b2 := 2, b3 := 0.01
    eps := 1e-6, pr := 101e3, pmin := 100 }

/-- The `Li2002` model object: constitutive constants plus the persistent
mutable state (`stress`, `strain`, the bounding-surface internals
`alpha`, `beta`, `H1`, `H2`, the accumulated index `L1`, and the void
ratio `e`, which `__init__` leaves unset and the drivers initialise —
modelled as a field starting at `0`). -/
structure Li2002 where
  params : LiParams
  stress : Mat3
  strain : Mat3
  alpha : Mat3
  beta : ℝ
  H1 : ℝ
  H2 : ℝ
  L1 : ℝ
  e : ℝ

/-- `Li2002()` with the default constructor arguments. -/
def Li2002.default : Li2002 :=
  { params := defaultParams, stress := 0, strain := 0, alpha := 0
    beta := 0, H1 := 0, H2 := 0, L1 := 0, e := 0 }

namespace Li2002

/-- `vector_to_matrix`: 6-vector `[xx, yy, zz, xy, yz, zx]` to a symmetric 3x3. -/
def vector_to_matrix (v : Fin 6 → ℝ) : Mat3 :=
  Matrix.of ![![v 0, v 3, v 5], ![v 3, v 1, v 4], ![v 5, v 4, v 2]]

/-- `set_strain_variable`: volumetric strain and deviatoric magnitude. -/
def set_strain_variable (strain_mat : Mat3) : ℝ × ℝ :=
  let ev := strain_mat 0 0 + strain_mat 1 1 + strain_mat 2 2
  let dev_strain := strain_mat - (ev / 3) • (1 : Mat3)
  (ev, Real.sqrt (2 / 3 * sumSq dev_strain))

/-- `Li2002.set_stress_variable`: `p` and `R` of a stress tensor, with the
model's floor `self.pmin` (= 100 by default) in the `rij` denominator. -/
def set_stress_variable (md : Li2002) (stress : Mat3) : ℝ × ℝ :=
  let p := (stress 0 0 + stress 1 1 + stress 2 2) / 3
  let dev_stress := stress - p • (1 : Mat3)
  let r_stress := matDiv dev_stress (max p md.params.pmin)
  (p, Real.sqrt (1.5 * sumSq r_stress))

/-- `Lode_angle`: `θ = arcsin(clamp(J3/2 · (3/J2)^1.5, -1, 1)) / 3`, with the
degenerate `J2 = 0` case sent to `0`. -/
def Lode_angle (dev_stress : Mat3) : ℝ :=
  let J2 := 0.5 * sumSq dev_stress
  let J3 := -dev_stress.det
  let s3 := if J2 = 0 then 0 else min (max (J3 / 2 * (3 / J2) ^ (1.5 : ℝ)) (-1)) 1
  Real.arcsin s3 / 3

/-- `g_theta` (Eq. 7): the critical-state shape function, with the
degenerate branch at `sin(3θ) = 0`. -/
def g_theta (md : Li2002) (dev_stress : Mat3) : ℝ :=
  let c := md.params.c
  let theta := Lode_angle dev_stress
  let st := Real.sin (3 * theta)
  if st = 0 then c * (1 + c) / (1 + c ^ 2)
  else (Real.sqrt ((1 + c ^ 2) ^ 2 + 4 * c * (1 - c ^ 2) * st) - (1 + c ^ 2)) /
    (2 * (1 - c) * st)

/-- `dg_theta` (Eq. 45): the analytic derivative of `g_theta`, with the same
degenerate branch. -/
def dg_theta (md : Li2002) (theta : ℝ) : ℝ :=
  let c := md.params.c
  let st := Real.sin (3 * theta)
  if st = 0 then -(c ^ 2) * (1 - c) * (1 + c) ^ 2 / (1 + c ^ 2) ^ 3
  else c * (1 + c) / (st * Real.sqrt ((1 + c ^ 2) ^ 2 + 4 * c * (1 - c ^ 2) * st)) -
    (Real.sqrt ((1 + c ^ 2) ^ 2 + 4 * c * (1 - c ^ 2) * st) - (1 + c ^ 2)) /
      (2 * (1 - c) * st * st)

/-- `state_parameter` (Eq. 18). -/
def state_parameter (md : Li2002) (e p : ℝ) : ℝ :=
  e - (md.params.eg -
    md.params.rlambdac * (max p md.params.pmin / md.params.pr) ^ (md.params.xi))

/-- `elastic_modulus` (Eqs. 16, 17). -/
def elastic_modulus (md : Li2002) (e p : ℝ) : ℝ × ℝ :=
  let G := md.params.G0 * (2.97 - e) ^ 2 / (1 + e) *
    Real.sqrt (max p md.params.pmin * md.params.pr)
  (G, G * 2 * (1 + md.params.nu) / (3 * (1 - 2 * md.params.nu)))

/-- The isotropic stiffness `λ δij δkl + 2μ δik δjl` through the 9x9
flattening (`Dijkl = einsum('ij,kl->ijkl', I, I)`, and
`Dikjl = einsum('ij,kl->ikjl', I, I)` flattens to the identity). -/
def stiffTensor (lam mu : ℝ) : Tens4 := fun pq kl =>
  lam * (if pq.1 = pq.2 then 1 else 0) * (if kl.1 = kl.2 then 1 else 0) +
    2 * mu * ((if pq.1 = kl.1 then 1 else 0) * (if pq.2 = kl.2 then 1 else 0))

/-- `elastic_stiffness`: Lamé parameters from `G` and `self.nu`. -/
def elastic_stiffness (md : Li2002) (G : ℝ) : Tens4 :=
  stiffTensor (2 * G * md.params.nu / (1 - 2 * md.params.nu)) G

/-- `isotropic_compression_stiffness` (elastic + Eq. 29). -/
def isotropic_compression_stiffness (md : Li2002) (e p : ℝ) : Tens4 :=
  let G := (md.elastic_modulus e p).1
  let fn := 2 * (1 + md.params.nu) / (3 * (1 - 2 * md.params.nu))
  let K2 := G * fn * md.params.h4 /
    (md.params.h4 + Real.sqrt (2 / 3) * fn * md.params.d2)
  md.elastic_stiffness (K2 / fn)

/-- `solve_strain`: `np.linalg.solve(np.reshape(E,(9,9)), stress.flatten())`. -/
def solve_strain (stress_mat : Mat3) (E : Tens4) : Mat3 :=
  vecToMat (E⁻¹.mulVec (matToVec stress_mat))

/-- The local `mapping_r` of `set_mapping_stress`: the image point
`alpha + t (rij - alpha)` with its `R` and `g`. -/
def mapping_r (md : Li2002) (t : ℝ) (rij alpha : Mat3) : Mat3 × ℝ × ℝ :=
  let rij_bar := alpha + t • (rij - alpha)
  (rij_bar, Real.sqrt (1.5 * sumSq rij_bar), md.g_theta rij_bar)

/-- The local `F1_boundary_surface` of `set_mapping_stress` (Eq. 6):
`R̄(t) - H1 ḡ(t)`. -/
def F1_boundary_surface (md : Li2002) (t : ℝ) (rij alpha : Mat3) : ℝ :=
  let r := md.mapping_r t rij alpha
  r.2.1 - md.H1 * r.2.2

/-- Mechanism-1 part of `set_mapping_stress` (after the entry-flag
recentering): either declares the mechanism elastic (`‖rij - alpha‖ < 1e-6`),
or maps onto bounding surface 1, redefining `H1` when the stress is already
outside (`t = 1`), else root-finding `t ∈ [1, 1e6]`. -/
def smsMech1 (md : Li2002) (sp : SP) : Li2002 × SP :=
  if npnorm (sp.rij - md.alpha) < 1e-6 then
    (md, { sp with elastic_flag1 := true })
  else if 0 < md.F1_boundary_surface 1 sp.rij md.alpha then
    let r := md.mapping_r 1 sp.rij md.alpha
    ({ md with H1 := r.2.1 / r.2.2 },
      { sp with rij_bar := r.1, R_bar := r.2.1, g_bar := r.2.2, rho1_ratio := 1 })
  else
    let t := brentq (fun t => md.F1_boundary_surface t sp.rij md.alpha) 1 1000000
    let r := md.mapping_r t sp.rij md.alpha
    (md, { sp with rij_bar := r.1, R_bar := r.2.1, g_bar := r.2.2, rho1_ratio := t })

/-- Mechanism-2 part of `set_mapping_stress`: elastic when `p = beta` or
`dp = 0` or on the early-return overshoot cases; otherwise ratchets `H2`
and sets `p_bar` and `rho2_ratio`. -/
def smsMech2 (md : Li2002) (sp : SP) : Li2002 × SP :=
  if |sp.p - md.beta| = 0 then (md, { sp with elastic_flag2 := true })
  else
    let md := if md.H2 < sp.p then { md with H2 := sp.p } else md
    if 0 < sp.dp then
      if sp.p ≤ md.beta then (md, { sp with elastic_flag2 := true })
      else
        let sp := { sp with p_bar := md.H2 }
        (md, { sp with rho2_ratio := |sp.p_bar - md.beta| / |sp.p - md.beta| })
    else if sp.dp < 0 then
      if md.beta ≤ sp.p then (md, { sp with elastic_flag2 := true })
      else
        let sp := { sp with p_bar := md.params.pmin }
        (md, { sp with rho2_ratio := |sp.p_bar - md.beta| / |sp.p - md.beta| })
    else (md, { sp with elastic_flag2 := true })

/-- `set_mapping_stress`: entry-flag recentering of `alpha` and `beta`,
then the two mapping mechanisms. -/
def set_mapping_stress (md : Li2002) (sp : SP) : Li2002 × SP :=
  let md := if sp.elastic_flag1 then { md with alpha := sp.rij } else md
  let md := if sp.elastic_flag2 then { md with beta := sp.p } else md
  let r1 := md.smsMech1 sp
  r1.1.smsMech2 r1.2

/-- `set_parameters`: elastic moduli, state parameter, shape value, and the
plastic moduli / dilatancy of whichever mechanisms are active
(Eqs. 19, 21, 22, 23, 25, 27). -/
def set_parameters (md : Li2002) (sp : SP) : SP :=
  let q := md.params
  let Ge := (md.elastic_modulus md.e sp.p).1
  let Ke := (md.elastic_modulus md.e sp.p).2
  let sp := { sp with Ge := Ge, Ke := Ke, psi := md.state_parameter md.e sp.p,
                      g := md.g_theta sp.sij }
  let sp :=
    if sp.elastic_flag1 then { sp with Kp1_b := 0 }
    else
      let fL := (1 - q.b3) /
        Real.sqrt ((1 - md.L1 / q.b1) ^ 2 + (md.L1 / q.b1) / q.b2 ^ 2) + q.b3
      let r1 := (1 / sp.rho1_ratio) ^ (10 : ℕ)
      let h := (q.h1 - q.h2 * md.e) * (r1 + q.h3 * fL * (1 - r1))
      let Mg_R := q.M * sp.g_bar * Real.exp (-q.n * sp.psi) / sp.R_bar
      { sp with h := h,
                Kp1 := sp.Ge * h * (Mg_R * sp.rho1_ratio - 1),
                Kp1_b := sp.Ge * h * (Mg_R - 1),
                D1 := q.d1 * (Real.exp (q.m * sp.psi) * Real.sqrt sp.rho1_ratio -
                  sp.R / (q.M * sp.g)) }
  if sp.elastic_flag2 ∨ sp.R = 0 then { sp with Kp2_b := 0 }
  else
    let sign := sp.dp / |sp.dp|
    let Mg_R := q.M * sp.g / sp.R
    let Kp2 := sp.Ge * q.h4 * Mg_R * sp.rho2_ratio ^ (q.a : ℝ) * sign
    { sp with Kp2 := Kp2,
              Kp2_b := if sp.rho2_ratio = 1 ∧ 0 < sign then Kp2 else 0,
              D2 := if 1 ≤ Mg_R then q.d2 * (Mg_R - 1) * sign else 0 }

/-- The local `dF1_r` of `set_parameter_nm`: gradient of bounding surface 1,
zero in the degenerate `|R̄| < eps` case. -/
def dF1_r (md : Li2002) (r_bar : Mat3) (R_bar theta_bar g_bar dg_bar : ℝ) : Mat3 :=
  if |R_bar| < md.params.eps then 0
  else
    let st_bar := Real.sin (3 * theta_bar)
    let a := R_bar * g_bar + 3 * R_bar * st_bar * dg_bar
    let b := 9 * dg_bar
    let c := 1.5 / (R_bar * g_bar) ^ 2
    c • (a • r_bar + b • (r_bar * r_bar.transpose))

/-- `set_parameter_nm`: the flow directions `nij` (normalised deviatoric
gradient of surface 1, when mechanism 1 is active) and `mij = rij/|rij|`. -/
def set_parameter_nm (md : Li2002) (sp : SP) : SP :=
  let sp :=
    if sp.elastic_flag1 then sp
    else
      let theta_bar := Lode_angle sp.sij
      let dg_bar := md.dg_theta theta_bar
      let dF1 := md.dF1_r sp.rij_bar sp.R_bar theta_bar sp.g_bar dg_bar
      let nij : Mat3 := dF1 - (trace3 dF1 / 3) • (1 : Mat3)
      { sp with nij := matDiv nij (npnorm nij) }
  let r_abs := npnorm sp.rij
  if r_abs = 0 then { sp with mij := 0 } else { sp with mij := matDiv sp.rij r_abs }

/-- `set_parameter_TZ`: the coupling scalar `B` and the composite tensors
`Tij`, `Zij` of the consistency condition, with the elastic / `R = 0`
edge-case branches. -/
def set_parameter_TZ (md : Li2002) (sp : SP) : SP :=
  let q := md.params
  let sp :=
    if sp.elastic_flag1 ∨ sp.elastic_flag2 ∨ sp.R = 0 then { sp with B := 0 }
    else
      let nm := ddot sp.nij sp.mij
      let nr := ddot sp.nij sp.rij
      { sp with B := (2 * sp.Ge * nm - Real.sqrt (2 / 3) * sp.Ke * sp.D2 * nr) /
          (Real.sqrt (2 / 3) * sp.Ke * sp.D2 + sp.Kp2) }
  let sp :=
    if sp.elastic_flag1 then { sp with Tij := 0 }
    else
      let nr := ddot sp.nij sp.rij
      let Tu : Mat3 := (2 * sp.Ge) • sp.nij - (sp.Ke * (nr + sp.B)) • (1 : Mat3)
      let Td := 2 * sp.Ge - Real.sqrt (2 / 3) * sp.Ke * sp.D1 * (nr + sp.B) + sp.Kp1
      { sp with Tij := matDiv Tu Td }
  if sp.elastic_flag2 then { sp with Zij := 0 }
  else
    let Zu : Mat3 := sp.Ke • (1 : Mat3) -
      (Real.sqrt (2 / 3) * sp.Ke * sp.D1) • sp.Tij
    let Zd := if sp.R = 0 then
        Real.sqrt (2 / 3) * sp.Ke +
          sp.Ge * q.h4 / q.d2 * sp.rho2_ratio ^ (q.a : ℝ)
      else Real.sqrt (2 / 3) * sp.Ke * sp.D2 + sp.Kp2
    { sp with Zij := matDiv Zu Zd }

/-- `set_tensor_Ep`: `Ep = Ee : (I - Λ1 - Λ2)` (each `Λ` zero when its
mechanism is elastic; `einsum('pk,ql->pqkl', I, I)` flattens to `1`). -/
def set_tensor_Ep (md : Li2002) (sp : SP) : SP :=
  let Lm1 : Tens4 :=
    if sp.elastic_flag1 then 0
    else outer4 (sp.nij + (Real.sqrt (2 / 27) * sp.D1) • (1 : Mat3)) sp.Tij
  let Lm2 : Tens4 :=
    if sp.elastic_flag2 then 0
    else if sp.R = 0 then outer4 (Real.sqrt (2 / 27) • (1 : Mat3)) sp.Zij
    else outer4 (sp.mij + (Real.sqrt (2 / 27) * sp.D2) • (1 : Mat3)) sp.Zij
  { sp with Ep := md.elastic_stiffness sp.Ge * ((1 : Matrix (Fin 3 × Fin 3) (Fin 3 × Fin 3) ℝ) - Lm1 - Lm2) }

/-- The shared four-call prelude of `check_unload`, `update_parameters` and
`plastic_stiffness`: `set_mapping_stress`, `set_parameters`,
`set_parameter_nm`, `set_parameter_TZ`. -/
def evalSP (md : Li2002) (sp : SP) : Li2002 × SP :=
  let r := md.set_mapping_stress sp
  (r.1, r.1.set_parameter_TZ (r.1.set_parameter_nm (r.1.set_parameters r.2)))

/-- `check_unload`: evaluates the model on the snapshot, then from the signs
of the projected loading indices `dL1 = Tij:dε`, `dL2 = Zij:dε` decides the
elastic flags for the next evaluation, recentering `alpha` (resp. `beta`)
on a detected mechanism-1 (resp. 2) unload. -/
def check_unload (md : Li2002) (sp : SP) : Li2002 × SP × Bool × Bool :=
  let r := md.evalSP sp
  let m1 := r.1
  let s4 := r.2
  let dL1 := ddot s4.Tij s4.dstrain
  let dL2 := ddot s4.Zij s4.dstrain
  let ef1 : Bool := dL1 < 0
  let m2 := if dL1 < 0 then { m1 with alpha := s4.rij } else m1
  let ef2 : Bool := dL2 < 0
  let m3 := if dL2 < 0 then { m2 with beta := s4.p } else m2
  (m3, s4, ef1, ef2)

/-- `update_parameters`: evaluates the model on the snapshot and commits the
hardening updates `L1 += dL1`, `H1 += Kp1_b dL1 / p` (mechanism 1 active)
and `H2 += Kp2_b dL2` (mechanism 2 active). -/
def update_parameters (md : Li2002) (sp : SP) : Li2002 × SP :=
  let r := md.evalSP sp
  let m1 := r.1
  let s4 := r.2
  let dL1 := ddot s4.Tij s4.dstrain
  let dL2 := ddot s4.Zij s4.dstrain
  let m2 := if s4.elastic_flag1 then m1
    else { m1 with L1 := m1.L1 + dL1, H1 := m1.H1 + s4.Kp1_b * dL1 / s4.p }
  let m3 := if s4.elastic_flag2 then m2 else { m2 with H2 := m2.H2 + s4.Kp2_b * dL2 }
  (m3, s4)

/-- `plastic_stiffness`: the four-call prelude followed by `set_tensor_Ep`. -/
def plastic_stiffness (md : Li2002) (sp : SP) : Li2002 × SP :=
  let r := md.evalSP sp
  (r.1, r.1.set_tensor_Ep r.2)

/-- `strain` of `solve_strain_with_consttain` after `strain[d] = 0.0`: the
given strain with the stress-prescribed components zeroed. -/
def swcStrain0 (strain_given : Mat3) (d : Fin 3 × Fin 3 → Bool) : Fin 3 × Fin 3 → ℝ :=
  fun x => if d x then 0 else matToVec strain_given x

/-- `stress = stress_given.flatten() - A @ strain` of
`solve_strain_with_consttain`: the residual after eliminating the
prescribed-strain contribution. -/
def swcStress1 (strain_given stress_given : Mat3) (E : Tens4)
    (d : Fin 3 × Fin 3 → Bool) : Fin 3 × Fin 3 → ℝ :=
  fun x => matToVec stress_given x - E.mulVec (swcStrain0 strain_given d) x

/-- `A_mask = A[d][:,d]` of `solve_strain_with_consttain`: the stiffness
restricted to the stress-prescribed indices. -/
def swcAmask (E : Tens4) (d : Fin 3 × Fin 3 → Bool) :
    Matrix {x // d x = true} {x // d x = true} ℝ := fun i j => E i.1 j.1

/-- The full strain after `strain[d] = np.linalg.solve(A_mask, stress_mask)`
writes the reduced solve's result back into the masked slots. -/
def swcStrain1 (strain_given stress_given : Mat3) (E : Tens4)
    (d : Fin 3 × Fin 3 → Bool) : Fin 3 × Fin 3 → ℝ := fun x =>
  if h : d x = true then
    (swcAmask E d)⁻¹.mulVec
      (fun i => swcStress1 strain_given stress_given E d i.1) ⟨x, h⟩
  else swcStrain0 strain_given d x

/-- `solve_strain_with_consttain`: mixed control.  `d x = true` marks a
stress-prescribed (deforming) component; the known-strain contribution is
eliminated, the reduced system on the masked indices solved, and the full
consistent `(strain, stress = A @ strain)` pair rebuilt. -/
def solve_strain_with_consttain (strain_given stress_given : Mat3) (E : Tens4)
    (d : Fin 3 × Fin 3 → Bool) : Mat3 × Mat3 :=
  (vecToMat (swcStrain1 strain_given stress_given E d),
   vecToMat (E.mulVec (swcStrain1 strain_given stress_given E d)))

/-- `plastic_deformation`: trial unload check on `sp0`, committed stiffness
on a fresh snapshot carrying the detected flags, mixed-control solve, and
the hardening commit on the resulting increment's snapshot.  Returns the
updated model, the resolved increments, and the committed snapshot. -/
def plastic_deformation (md : Li2002) (dstrain_given dstress_given : Mat3)
    (deformation : Matrix (Fin 3) (Fin 3) Bool) (sp0 : SP) :
    Li2002 × Mat3 × Mat3 × SP :=
  let r := md.check_unload sp0
  let mA := r.1
  let sp := SP.init mA.strain mA.stress dstrain_given dstress_given r.2.2.1 r.2.2.2
  let r2 := mA.plastic_stiffness sp
  let mB := r2.1
  let s := solve_strain_with_consttain dstrain_given dstress_given r2.2.Ep
    (fun x => deformation x.1 x.2)
  let sp2 := SP.init mB.strain mB.stress s.1 s.2 false false
  let r3 := mB.update_parameters sp2
  (r3.1, s.1, s.2, r3.2)

/-- One iteration of the `isotropic_compression` loop: isotropic stiffness
from the current `e` and `p`, direct solve, stress/strain accumulation and
the void-ratio update `e = e0 - ev (1 + e0)`. -/
def isoCompStep (e0 : ℝ) (dstress : Mat3) (md : Li2002) : Li2002 :=
  let p := (md.set_stress_variable md.stress).1
  let E := md.isotropic_compression_stiffness md.e p
  let dstrain := solve_strain dstress E
  let stress := md.stress + dstress
  let strain := md.strain + dstrain
  let ev := (set_strain_variable strain).1
  { md with stress := stress, strain := strain, e := e0 - ev * (1 + e0) }

/-- `isotropic_compression`: sets `e = e0`, applies the fixed increment
`[dcp, 2 dcp, dcp]` for `nstep` steps, then clears the strain accumulator. -/
def isotropic_compression (md : Li2002) (e0 compression_stress : ℝ) (nstep : ℕ) :
    Li2002 :=
  let dcp := compression_stress / (nstep : ℝ)
  let dstress := vector_to_matrix ![dcp, dcp * 2, dcp, 0, 0, 0]
  let mf := (isoCompStep e0 dstress)^[nstep] { md with e := e0 }
  { mf with strain := 0 }

end Li2002

/-! ## The mixed-control solver at the two extreme masks (C7, C9) -/

lemma strain1_all_false (εg σg : Mat3) (E : Tens4) :
    Li2002.swcStrain1 εg σg E (fun _ => false) = matToVec εg := by
  funext x
  simp [Li2002.swcStrain1, Li2002.swcStrain0]

lemma solveWC_all_false (εg σg : Mat3) (E : Tens4) :
    Li2002.solve_strain_with_consttain εg σg E (fun _ => false) = (εg, tensApply E εg) := by
  unfold Li2002.solve_strain_with_consttain tensApply
  rw [strain1_all_false]
  rfl

/-- The all-`True` mask's index subtype is the whole index type. -/
def allTrueEquiv : {x : Fin 3 × Fin 3 // (fun _ : Fin 3 × Fin 3 => true) x = true} ≃
    (Fin 3 × Fin 3) :=
  Equiv.subtypeUnivEquiv fun _ => rfl

lemma strain1_all_true (εg σg : Mat3) (E : Tens4) :
    Li2002.swcStrain1 εg σg E (fun _ => true) = E⁻¹.mulVec (matToVec σg) := by
  have hA : Li2002.swcAmask E (fun _ => true) =
      E.submatrix ⇑allTrueEquiv ⇑allTrueEquiv := rfl
  have hs1 : Li2002.swcStress1 εg σg E (fun _ => true) = matToVec σg := by
    funext x
    have h0 : Li2002.swcStrain0 εg (fun _ => true) = 0 := by
      funext y; simp [Li2002.swcStrain0]
    simp [Li2002.swcStress1, h0]
  funext x
  have hx : Li2002.swcStrain1 εg σg E (fun _ => true) x =
      (Li2002.swcAmask E (fun _ => true))⁻¹.mulVec
        (fun i => Li2002.swcStress1 εg σg E (fun _ => true) i.1) ⟨x, rfl⟩ := by
    simp [Li2002.swcStrain1]
  rw [hx, hA, Matrix.inv_submatrix_equiv]
  have hv : (fun i : {x : Fin 3 × Fin 3 // (fun _ : Fin 3 × Fin 3 => true) x = true} =>
      Li2002.swcStress1 εg σg E (fun _ => true) i.1) =
      (Li2002.swcStress1 εg σg E (fun _ => true)) ∘ ⇑allTrueEquiv := rfl
  rw [hv, Matrix.submatrix_mulVec_equiv]
  have hcomp : ((Li2002.swcStress1 εg σg E (fun _ => true)) ∘ ⇑allTrueEquiv) ∘
      ⇑allTrueEquiv.symm = Li2002.swcStress1 εg σg E (fun _ => true) := by
    funext a
    simp only [Function.comp_apply, Equiv.apply_symm_apply]
  rw [hcomp, hs1]
  rfl

lemma solveWC_all_true (εg σg : Mat3) (E : Tens4) (hE : IsUnit E.det) :
    Li2002.solve_strain_with_consttain εg σg E (fun _ => true) =
      (Li2002.solve_strain σg E, σg) := by
  unfold Li2002.solve_strain_with_consttain Li2002.solve_strain
  rw [strain1_all_true, Matrix.mulVec_mulVec, Matrix.mul_nonsing_inv E hE,
    Matrix.one_mulVec]
  rfl

lemma tensApply_solve_strain (σg : Mat3) (E : Tens4) (hE : IsUnit E.det) :
    tensApply E (Li2002.solve_strain σg E) = σg := by
  unfold tensApply Li2002.solve_strain
  show vecToMat (E.mulVec (E⁻¹.mulVec (matToVec σg))) = σg
  rw [Matrix.mulVec_mulVec, Matrix.mul_nonsing_inv E hE, Matrix.one_mulVec]
  rfl

/-- C7: with every component strain-prescribed (`deformation` all `False`)
the mixed-control solver returns the given strain unchanged together with
`stress = E : strain` exactly; with every component stress-prescribed
(`deformation` all `True`) and `E` invertible (with right inverse `B`),
applying `E` to the returned strain recovers the given stress, and the
returned stress equals the given stress. -/
theorem C7_mixed_solver_roundtrip (E B : Tens4) (hEB : E * B = 1) (εg σg : Mat3) :
    (Li2002.solve_strain_with_consttain εg σg E (fun _ => false)).1 = εg ∧
    (Li2002.solve_strain_with_consttain εg σg E (fun _ => false)).2 = tensApply E εg ∧
    tensApply E (Li2002.solve_strain_with_consttain εg σg E (fun _ => true)).1 = σg ∧
    (Li2002.solve_strain_with_consttain εg σg E (fun _ => true)).2 = σg := by
  have hE : IsUnit E.det := Matrix.isUnit_det_of_right_inverse hEB
  refine ⟨?_, ?_, ?_, ?_⟩
  · rw [solveWC_all_false]
  · rw [solveWC_all_false]
  · rw [solveWC_all_true εg σg E hE]
    exact tensApply_solve_strain σg E hE
  · rw [solveWC_all_true εg σg E hE]

/-- Witness for C7 at the (invertible) identity stiffness. -/
theorem C7_mixed_solver_roundtrip_witness :
    (1 : Matrix (Fin 3 × Fin 3) (Fin 3 × Fin 3) ℝ) * 1 = 1 ∧
    ((Li2002.solve_strain_with_consttain 0 0
        (1 : Matrix (Fin 3 × Fin 3) (Fin 3 × Fin 3) ℝ) (fun _ => false)).1 = 0 ∧
     (Li2002.solve_strain_with_consttain 0 0
        (1 : Matrix (Fin 3 × Fin 3) (Fin 3 × Fin 3) ℝ) (fun _ => false)).2 =
       tensApply 1 0 ∧
     tensApply 1 (Li2002.solve_strain_with_consttain 0 0
        (1 : Matrix (Fin 3 × Fin 3) (Fin 3 × Fin 3) ℝ) (fun _ => true)).1 = 0 ∧
     (Li2002.solve_strain_with_consttain 0 0
        (1 : Matrix (Fin 3 × Fin 3) (Fin 3 × Fin 3) ℝ) (fun _ => true)).2 = 0) :=
  ⟨one_mul 1, C7_mixed_solver_roundtrip 1 1 (one_mul 1) 0 0⟩

/-- C9: with the mask all `True` (all components stress-prescribed), `E`
invertible (right inverse `B`) and a zero given strain,
`solve_strain_with_consttain` refines `solve_strain`: it returns the same
strain, and a stress equal to `E` applied to that strain, i.e. equal to
`b`. -/
theorem C9_solver_refines_solve_strain (E B : Tens4) (hEB : E * B = 1) (b : Mat3) :
    (Li2002.solve_strain_with_consttain 0 b E (fun _ => true)).1 =
      Li2002.solve_strain b E ∧
    (Li2002.solve_strain_with_consttain 0 b E (fun _ => true)).2 =
      tensApply E (Li2002.solve_strain b E) ∧
    (Li2002.solve_strain_with_consttain 0 b E (fun _ => true)).2 = b := by
  have hE : IsUnit E.det := Matrix.isUnit_det_of_right_inverse hEB
  rw [solveWC_all_true 0 b E hE]
  exact ⟨rfl, (tensApply_solve_strain b E hE).symm, rfl⟩

/-- Witness for C9 at the identity stiffness. -/
theorem C9_solver_refines_solve_strain_witness :
    (1 : Matrix (Fin 3 × Fin 3) (Fin 3 × Fin 3) ℝ) * 1 = 1 ∧
    ((Li2002.solve_strain_with_consttain 0 0
        (1 : Matrix (Fin 3 × Fin 3) (Fin 3 × Fin 3) ℝ) (fun _ => true)).1 =
       Li2002.solve_strain 0 1 ∧
     (Li2002.solve_strain_with_consttain 0 0
        (1 : Matrix (Fin 3 × Fin 3) (Fin 3 × Fin 3) ℝ) (fun _ => true)).2 =
       tensApply 1 (Li2002.solve_strain 0 1) ∧
     (Li2002.solve_strain_with_consttain 0 0
        (1 : Matrix (Fin 3 × Fin 3) (Fin 3 × Fin 3) ℝ) (fun _ => true)).2 = 0) :=
  ⟨one_mul 1, C9_solver_refines_solve_strain 1 1 (one_mul 1) 0⟩

/-! ## Frame lemmas for the evaluation pipeline (C5, C6, C10) -/

lemma smsMech1_model_keeps (md : Li2002) (sp : SP) :
    (md.smsMech1 sp).1.stress = md.stress ∧ (md.smsMech1 sp).1.strain = md.strain ∧
    (md.smsMech1 sp).1.params = md.params ∧ (md.smsMech1 sp).1.L1 = md.L1 ∧
    (md.smsMech1 sp).1.e = md.e ∧ (md.smsMech1 sp).1.alpha = md.alpha ∧
    (md.smsMech1 sp).1.beta = md.beta ∧ (md.smsMech1 sp).1.H2 = md.H2 := by
  unfold Li2002.smsMech1
  split_ifs <;> simp

lemma smsMech2_model_keeps (md : Li2002) (sp : SP) :
    (md.smsMech2 sp).1.stress = md.stress ∧ (md.smsMech2 sp).1.strain = md.strain ∧
    (md.smsMech2 sp).1.params = md.params ∧ (md.smsMech2 sp).1.L1 = md.L1 ∧
    (md.smsMech2 sp).1.e = md.e ∧ (md.smsMech2 sp).1.alpha = md.alpha ∧
    (md.smsMech2 sp).1.beta = md.beta ∧ (md.smsMech2 sp).1.H1 = md.H1 := by
  unfold Li2002.smsMech2
  split_ifs <;> simp <;> split_ifs <;> simp

lemma smsMech2_H2_mono (md : Li2002) (sp : SP) : md.H2 ≤ (md.smsMech2 sp).1.H2 := by
  unfold Li2002.smsMech2
  split_ifs <;> simp
  all_goals try (split_ifs <;> simp)
  all_goals linarith

lemma sms_model_keeps (md : Li2002) (sp : SP) :
    (md.set_mapping_stress sp).1.stress = md.stress ∧
    (md.set_mapping_stress sp).1.strain = md.strain ∧
    (md.set_mapping_stress sp).1.params = md.params ∧
    (md.set_mapping_stress sp).1.L1 = md.L1 ∧
    (md.set_mapping_stress sp).1.e = md.e := by
  unfold Li2002.set_mapping_stress
  split_ifs <;>
    simp [smsMech2_model_keeps, smsMech1_model_keeps,
      (smsMech2_model_keeps _ _).1, (smsMech2_model_keeps _ _).2.1]

lemma sms_alpha_keeps (md : Li2002) (sp : SP) (h1 : sp.elastic_flag1 = false) :
    (md.set_mapping_stress sp).1.alpha = md.alpha := by
  unfold Li2002.set_mapping_stress
  rw [h1]
  simp only [Bool.false_eq_true, if_false]
  split_ifs <;>
    simp [(smsMech2_model_keeps _ _).2.2.2.2.2.1, (smsMech1_model_keeps _ _).2.2.2.2.2.1]

lemma sms_beta_keeps (md : Li2002) (sp : SP) (h2 : sp.elastic_flag2 = false) :
    (md.set_mapping_stress sp).1.beta = md.beta := by
  unfold Li2002.set_mapping_stress
  rw [h2]
  simp only [Bool.false_eq_true, if_false]
  split_ifs <;>
    simp [(smsMech2_model_keeps _ _).2.2.2.2.2.2.1, (smsMech1_model_keeps _ _).2.2.2.2.2.2.1]

lemma smsMech1_sp_keeps (md : Li2002) (sp : SP) :
    (md.smsMech1 sp).2.rij = sp.rij ∧ (md.smsMech1 sp).2.p = sp.p ∧
    (md.smsMech1 sp).2.dstrain = sp.dstrain ∧
    (md.smsMech1 sp).2.elastic_flag2 = sp.elastic_flag2 := by
  unfold Li2002.smsMech1
  split_ifs <;> simp

lemma smsMech2_sp_keeps (md : Li2002) (sp : SP) :
    (md.smsMech2 sp).2.rij = sp.rij ∧ (md.smsMech2 sp).2.p = sp.p ∧
    (md.smsMech2 sp).2.dstrain = sp.dstrain := by
  unfold Li2002.smsMech2
  split_ifs <;> simp
  all_goals try (split_ifs <;> simp)

lemma sms_sp_keeps (md : Li2002) (sp : SP) :
    (md.set_mapping_stress sp).2.rij = sp.rij ∧ (md.set_mapping_stress sp).2.p = sp.p ∧
    (md.set_mapping_stress sp).2.dstrain = sp.dstrain := by
  unfold Li2002.set_mapping_stress
  split_ifs <;>
    exact ⟨((smsMech2_sp_keeps _ _).1).trans (smsMech1_sp_keeps _ _).1,
      ((smsMech2_sp_keeps _ _).2.1).trans (smsMech1_sp_keeps _ _).2.1,
      ((smsMech2_sp_keeps _ _).2.2).trans (smsMech1_sp_keeps _ _).2.2.1⟩

lemma set_parameters_sp_keeps (md : Li2002) (sp : SP) :
    (md.set_parameters sp).rij = sp.rij ∧ (md.set_parameters sp).p = sp.p ∧
    (md.set_parameters sp).dstrain = sp.dstrain := by
  unfold Li2002.set_parameters
  split_ifs <;> simp
  all_goals try (split_ifs <;> simp)
  all_goals try (split_ifs <;> simp)

lemma set_parameter_nm_sp_keeps (md : Li2002) (sp : SP) :
    (md.set_parameter_nm sp).rij = sp.rij ∧ (md.set_parameter_nm sp).p = sp.p ∧
    (md.set_parameter_nm sp).dstrain = sp.dstrain := by
  unfold Li2002.set_parameter_nm
  split_ifs <;> simp
  all_goals try (split_ifs <;> simp)
  all_goals try (split_ifs <;> simp)

lemma set_parameter_TZ_sp_keeps (md : Li2002) (sp : SP) :
    (md.set_parameter_TZ sp).rij = sp.rij ∧ (md.set_parameter_TZ sp).p = sp.p ∧
    (md.set_parameter_TZ sp).dstrain = sp.dstrain := by
  unfold Li2002.set_parameter_TZ
  split_ifs <;> simp
  all_goals try (split_ifs <;> simp)
  all_goals try (split_ifs <;> simp)

lemma evalSP_sp_keeps (md : Li2002) (sp : SP) :
    (md.evalSP sp).2.rij = sp.rij ∧ (md.evalSP sp).2.p = sp.p ∧
    (md.evalSP sp).2.dstrain = sp.dstrain := by
  unfold Li2002.evalSP
  refine ⟨?_, ?_, ?_⟩
  · exact ((set_parameter_TZ_sp_keeps _ _).1).trans <|
      ((set_parameter_nm_sp_keeps _ _).1).trans <|
      ((set_parameters_sp_keeps _ _).1).trans (sms_sp_keeps _ _).1
  · exact ((set_parameter_TZ_sp_keeps _ _).2.1).trans <|
      ((set_parameter_nm_sp_keeps _ _).2.1).trans <|
      ((set_parameters_sp_keeps _ _).2.1).trans (sms_sp_keeps _ _).2.1
  · exact ((set_parameter_TZ_sp_keeps _ _).2.2).trans <|
      ((set_parameter_nm_sp_keeps _ _).2.2).trans <|
      ((set_parameters_sp_keeps _ _).2.2).trans (sms_sp_keeps _ _).2.2

lemma evalSP_model (md : Li2002) (sp : SP) :
    (md.evalSP sp).1 = (md.set_mapping_stress sp).1 := rfl

lemma checkUnload_stress_strain (md : Li2002) (sp : SP) :
    (md.check_unload sp).1.stress = md.stress ∧
    (md.check_unload sp).1.strain = md.strain := by
  simp only [Li2002.check_unload]
  split_ifs <;>
    simp [evalSP_model, (sms_model_keeps _ _).1, (sms_model_keeps _ _).2.1]

lemma update_parameters_stress_strain (md : Li2002) (sp : SP) :
    (md.update_parameters sp).1.stress = md.stress ∧
    (md.update_parameters sp).1.strain = md.strain := by
  simp only [Li2002.update_parameters]
  split_ifs <;>
    simp [evalSP_model, (sms_model_keeps _ _).1, (sms_model_keeps _ _).2.1]

lemma plastic_stiffness_model (md : Li2002) (sp : SP) :
    (md.plastic_stiffness sp).1 = (md.set_mapping_stress sp).1 := rfl

/-- C10: the `StateParameters` constructor stores copies: a snapshot built
from the model's persistent `stress`/`strain` holds those values, and the
whole snapshot-consuming step (`plastic_deformation`, which constructs,
evaluates and commits two snapshots) leaves the model's persistent
`stress` and `strain` unchanged — in the Python source this is exactly
what the `np.copy` calls in `StateParameters.__init__` guarantee. -/
theorem C10_snapshot_copies_model_arrays (md : Li2002) (dγ dσ : Mat3)
    (dfm : Matrix (Fin 3) (Fin 3) Bool) (sp0 : SP) :
    (SP.init md.strain md.stress dγ dσ false false).stress = md.stress ∧
    (SP.init md.strain md.stress dγ dσ false false).strain = md.strain ∧
    (md.plastic_deformation dγ dσ dfm sp0).1.stress = md.stress ∧
    (md.plastic_deformation dγ dσ dfm sp0).1.strain = md.strain := by
  refine ⟨rfl, rfl, ?_, ?_⟩
  · simp only [Li2002.plastic_deformation]
    rw [(update_parameters_stress_strain _ _).1, plastic_stiffness_model,
      (sms_model_keeps _ _).1, (checkUnload_stress_strain _ _).1]
  · simp only [Li2002.plastic_deformation]
    rw [(update_parameters_stress_strain _ _).2, plastic_stiffness_model,
      (sms_model_keeps _ _).2.1, (checkUnload_stress_strain _ _).2]

/-- C5: `check_unload` on a trial snapshot (entry flags clear, as for every
snapshot the drivers construct): a projected loading index `Tij:dε < 0`
returns `elastic_flag1 = True` and recenters the persistent `alpha` at the
snapshot's current `rij`; `Tij:dε ≥ 0` returns `elastic_flag1 = False` and
leaves `alpha` unchanged. -/
theorem C5_check_unload_flag1_alpha (md : Li2002) (sp : SP)
    (h1 : sp.elastic_flag1 = false) :
    (ddot (md.evalSP sp).2.Tij (md.evalSP sp).2.dstrain < 0 →
      (md.check_unload sp).2.2.1 = true ∧ (md.check_unload sp).1.alpha = sp.rij) ∧
    (0 ≤ ddot (md.evalSP sp).2.Tij (md.evalSP sp).2.dstrain →
      (md.check_unload sp).2.2.1 = false ∧ (md.check_unload sp).1.alpha = md.alpha) := by
  have hrij := (evalSP_sp_keeps md sp).1
  have halpha : (md.evalSP sp).1.alpha = md.alpha := by
    rw [evalSP_model]; exact sms_alpha_keeps md sp h1
  constructor
  · intro h
    by_cases h2 : ddot (md.evalSP sp).2.Zij (md.evalSP sp).2.dstrain < 0 <;>
      simp [Li2002.check_unload, h, h2, hrij]
  · intro h
    have h' : ¬ ddot (md.evalSP sp).2.Tij (md.evalSP sp).2.dstrain < 0 := not_lt.mpr h
    by_cases h2 : ddot (md.evalSP sp).2.Zij (md.evalSP sp).2.dstrain < 0 <;>
      simp [Li2002.check_unload, h', h2, halpha]

/-- Witness for C5 at the zero model and zero snapshot. -/
theorem C5_check_unload_flag1_alpha_witness :
    (SP.init 0 0 0 0 false false).elastic_flag1 = false ∧
    ((ddot (Li2002.default.evalSP (SP.init 0 0 0 0 false false)).2.Tij
        (Li2002.default.evalSP (SP.init 0 0 0 0 false false)).2.dstrain < 0 →
      (Li2002.default.check_unload (SP.init 0 0 0 0 false false)).2.2.1 = true ∧
      (Li2002.default.check_unload (SP.init 0 0 0 0 false false)).1.alpha =
        (SP.init 0 0 0 0 false false).rij) ∧
     (0 ≤ ddot (Li2002.default.evalSP (SP.init 0 0 0 0 false false)).2.Tij
        (Li2002.default.evalSP (SP.init 0 0 0 0 false false)).2.dstrain →
      (Li2002.default.check_unload (SP.init 0 0 0 0 false false)).2.2.1 = false ∧
      (Li2002.default.check_unload (SP.init 0 0 0 0 false false)).1.alpha =
        Li2002.default.alpha)) :=
  ⟨rfl, C5_check_unload_flag1_alpha Li2002.default (SP.init 0 0 0 0 false false) rfl⟩

lemma update_parameters_alpha_beta (md : Li2002) (sp : SP)
    (h1 : sp.elastic_flag1 = false) (h2 : sp.elastic_flag2 = false) :
    (md.update_parameters sp).1.alpha = md.alpha ∧
    (md.update_parameters sp).1.beta = md.beta := by
  simp only [Li2002.update_parameters]
  split_ifs <;>
    simp [evalSP_model, sms_alpha_keeps md sp h1, sms_beta_keeps md sp h2]

/-- C6: on a step that carries no unload flag from the previous step and on
which no unload is detected (both projected loading indices nonnegative),
the whole committed step `plastic_deformation` leaves the mapping centers
`alpha` and `beta` unchanged: they are modified only at a detected unload
(`check_unload`, C5) or on the step immediately following one (the
entry-flag recentering of `set_mapping_stress`). -/
theorem C6_mapping_centers_frame (md : Li2002) (sp0 : SP) (dγ dσ : Mat3)
    (dfm : Matrix (Fin 3) (Fin 3) Bool)
    (h1 : sp0.elastic_flag1 = false) (h2 : sp0.elastic_flag2 = false)
    (hL1 : 0 ≤ ddot (md.evalSP sp0).2.Tij (md.evalSP sp0).2.dstrain)
    (hL2 : 0 ≤ ddot (md.evalSP sp0).2.Zij (md.evalSP sp0).2.dstrain) :
    (md.plastic_deformation dγ dσ dfm sp0).1.alpha = md.alpha ∧
    (md.plastic_deformation dγ dσ dfm sp0).1.beta = md.beta := by
  have hL1' : ¬ ddot (md.evalSP sp0).2.Tij (md.evalSP sp0).2.dstrain < 0 :=
    not_lt.mpr hL1
  have hL2' : ¬ ddot (md.evalSP sp0).2.Zij (md.evalSP sp0).2.dstrain < 0 :=
    not_lt.mpr hL2
  have halpha : (md.evalSP sp0).1.alpha = md.alpha := by
    rw [evalSP_model]; exact sms_alpha_keeps md sp0 h1
  have hbeta : (md.evalSP sp0).1.beta = md.beta := by
    rw [evalSP_model]; exact sms_beta_keeps md sp0 h2
  have hef1 : (md.check_unload sp0).2.2.1 = false := by
    simp [Li2002.check_unload, hL1', hL2']
  have hef2 : (md.check_unload sp0).2.2.2 = false := by
    simp [Li2002.check_unload, hL1', hL2']
  have hA : (md.check_unload sp0).1.alpha = md.alpha := by
    simp [Li2002.check_unload, hL1', hL2', halpha]
  have hB : (md.check_unload sp0).1.beta = md.beta := by
    simp [Li2002.check_unload, hL1', hL2', hbeta]
  simp only [Li2002.plastic_deformation]
  rw [hef1, hef2]
  rw [(update_parameters_alpha_beta _ _ rfl rfl).1,
    (update_parameters_alpha_beta _ _ rfl rfl).2,
    plastic_stiffness_model, sms_alpha_keeps _ _ rfl, sms_beta_keeps _ _ rfl, hA, hB]
  exact ⟨rfl, rfl⟩

/-- Witness for C6 at the zero model and zero snapshot (where both loading
indices evaluate to `0`). -/
theorem C6_mapping_centers_frame_witness :
    (SP.init 0 0 0 0 false false).elastic_flag1 = false ∧
    (SP.init 0 0 0 0 false false).elastic_flag2 = false ∧
    0 ≤ ddot (Li2002.default.evalSP (SP.init 0 0 0 0 false false)).2.Tij
      (Li2002.default.evalSP (SP.init 0 0 0 0 false false)).2.dstrain ∧
    0 ≤ ddot (Li2002.default.evalSP (SP.init 0 0 0 0 false false)).2.Zij
      (Li2002.default.evalSP (SP.init 0 0 0 0 false false)).2.dstrain ∧
    (Li2002.default.plastic_deformation 0 0 0 (SP.init 0 0 0 0 false false)).1.alpha =
      Li2002.default.alpha ∧
    (Li2002.default.plastic_deformation 0 0 0 (SP.init 0 0 0 0 false false)).1.beta =
      Li2002.default.beta := by
  have hd : (SP.init 0 0 0 0 false false).dstrain = 0 := rfl
  have hT : ddot (Li2002.default.evalSP (SP.init 0 0 0 0 false false)).2.Tij
      (Li2002.default.evalSP (SP.init 0 0 0 0 false false)).2.dstrain = 0 := by
    rw [(evalSP_sp_keeps _ _).2.2, hd]
    simp [ddot]
  have hZ : ddot (Li2002.default.evalSP (SP.init 0 0 0 0 false false)).2.Zij
      (Li2002.default.evalSP (SP.init 0 0 0 0 false false)).2.dstrain = 0 := by
    rw [(evalSP_sp_keeps _ _).2.2, hd]
    simp [ddot]
  refine ⟨rfl, rfl, le_of_eq hT.symm, le_of_eq hZ.symm, ?_⟩
  exact C6_mapping_centers_frame Li2002.default (SP.init 0 0 0 0 false false) 0 0 0
    rfl rfl (le_of_eq hT.symm) (le_of_eq hZ.symm)

/-! ## The two pressure floors and the raw-`p` division (C3) -/

/-- A stress state with mean stress `p = 60`, between the snapshot floor
(`pmin = 1.0`) and the model floor (`pmin = 100.0`). -/
def stressC3 : Mat3 := Li2002.vector_to_matrix ![120, 30, 30, 0, 0, 0]

lemma stressC3_p : (stressC3 0 0 + stressC3 1 1 + stressC3 2 2) / 3 = (60 : ℝ) := by
  norm_num [show stressC3 0 0 = 120 from rfl, show stressC3 1 1 = 30 from rfl,
    show stressC3 2 2 = 30 from rfl]

lemma stressC3_sp_R : (SP.init 0 stressC3 0 0 false false).R = 3 / 2 := by
  show Real.sqrt (1.5 * sumSq (matDiv
      (stressC3 - ((stressC3 0 0 + stressC3 1 1 + stressC3 2 2) / 3) • (1 : Mat3))
      (max ((stressC3 0 0 + stressC3 1 1 + stressC3 2 2) / 3) 1))) = 3 / 2
  rw [stressC3_p, show max (60 : ℝ) 1 = 60 by norm_num]
  have hs : sumSq (matDiv (stressC3 - (60 : ℝ) • (1 : Mat3)) 60) = 3 / 2 := by
    simp [sumSq, Fin.sum_univ_three, matDiv, Matrix.sub_apply, Matrix.smul_apply,
      Matrix.one_apply, show stressC3 0 0 = 120 from rfl, show stressC3 1 1 = 30 from rfl,
      show stressC3 2 2 = 30 from rfl, show stressC3 0 1 = 0 from rfl,
      show stressC3 0 2 = 0 from rfl, show stressC3 1 0 = 0 from rfl,
      show stressC3 1 2 = 0 from rfl, show stressC3 2 0 = 0 from rfl,
      show stressC3 2 1 = 0 from rfl]
    norm_num
  rw [hs, show (1.5 * (3 / 2) : ℝ) = (3 / 2) ^ 2 by norm_num,
    Real.sqrt_sq (by norm_num)]

lemma stressC3_model_R : (Li2002.default.set_stress_variable stressC3).2 = 9 / 10 := by
  show Real.sqrt (1.5 * sumSq (matDiv
      (stressC3 - ((stressC3 0 0 + stressC3 1 1 + stressC3 2 2) / 3) • (1 : Mat3))
      (max ((stressC3 0 0 + stressC3 1 1 + stressC3 2 2) / 3)
        Li2002.default.params.pmin))) = 9 / 10
  rw [stressC3_p, show Li2002.default.params.pmin = (100 : ℝ) from rfl,
    show max (60 : ℝ) 100 = 100 by norm_num]
  have hs : sumSq (matDiv (stressC3 - (60 : ℝ) • (1 : Mat3)) 100) = 27 / 50 := by
    simp [sumSq, Fin.sum_univ_three, matDiv, Matrix.sub_apply, Matrix.smul_apply,
      Matrix.one_apply, show stressC3 0 0 = 120 from rfl, show stressC3 1 1 = 30 from rfl,
      show stressC3 2 2 = 30 from rfl, show stressC3 0 1 = 0 from rfl,
      show stressC3 0 2 = 0 from rfl, show stressC3 1 0 = 0 from rfl,
      show stressC3 1 2 = 0 from rfl, show stressC3 2 0 = 0 from rfl,
      show stressC3 2 1 = 0 from rfl]
    norm_num
  rw [hs, show (1.5 * (27 / 50) : ℝ) = (9 / 10) ^ 2 by norm_num,
    Real.sqrt_sq (by norm_num)]

/-- C3 counterexample: the floor is not one consistent `pmin`.  For the same
stress (mean stress 60), the snapshot's invariant computation divides by
`max(60, 1.0) = 60` (the raw `p`) while the model's divides by
`max(60, 100.0) = 100`, so the two `R` invariants of one stress state
disagree: `1.5 ≠ 0.9`. -/
theorem C3_counterexample_inconsistent_floor :
    (SP.init 0 stressC3 0 0 false false).R = 3 / 2 ∧
    (Li2002.default.set_stress_variable stressC3).2 = 9 / 10 ∧
    (3 / 2 : ℝ) ≠ 9 / 10 := by
  refine ⟨stressC3_sp_R, stressC3_model_R, by norm_num⟩

/-- C3 amended: every `p`-denominator in the invariant computations is
floored via `max(p, pmin)`, but with `pmin = 1.0` in `StateParameters` and
`pmin = 100.0` in `Li2002`; and the `H1` hardening increment of
`update_parameters` divides by the snapshot's raw `p`, not a floored one. -/
theorem C3_two_floors_and_raw_p (stress : Mat3) (md : Li2002) (sp : SP)
    (hp1 : (stress 0 0 + stress 1 1 + stress 2 2) / 3 ≤ 1)
    (hp100 : (stress 0 0 + stress 1 1 + stress 2 2) / 3 ≤ 100) :
    (SP.init 0 stress 0 0 false false).pmin = 1 ∧
    (SP.init 0 stress 0 0 false false).rij = (SP.init 0 stress 0 0 false false).sij ∧
    Li2002.default.params.pmin = 100 ∧
    (Li2002.default.set_stress_variable stress).2 = Real.sqrt (1.5 * sumSq (matDiv
      (stress - ((stress 0 0 + stress 1 1 + stress 2 2) / 3) • (1 : Mat3)) 100)) ∧
    (md.update_parameters sp).1.H1 = (md.evalSP sp).1.H1 +
      (if (md.evalSP sp).2.elastic_flag1 = true then 0
       else (md.evalSP sp).2.Kp1_b *
         ddot (md.evalSP sp).2.Tij (md.evalSP sp).2.dstrain / sp.p) := by
  refine ⟨rfl, ?_, rfl, ?_, ?_⟩
  · show matDiv _ (max ((stress 0 0 + stress 1 1 + stress 2 2) / 3) 1) = _
    rw [max_eq_right hp1]
    funext i j
    exact div_one _
  · show Real.sqrt (1.5 * sumSq (matDiv _
        (max ((stress 0 0 + stress 1 1 + stress 2 2) / 3)
          Li2002.default.params.pmin))) = _
    rw [show Li2002.default.params.pmin = (100 : ℝ) from rfl, max_eq_right hp100]
  · have hp := (evalSP_sp_keeps md sp).2.1
    simp only [Li2002.update_parameters]
    split_ifs with hf1 hf2 hf2 <;> simp_all <;> rw [hp]

/-- Witness for C3's amended floor theorem at the zero stress state. -/
theorem C3_two_floors_and_raw_p_witness :
    ((0 : Mat3) 0 0 + (0 : Mat3) 1 1 + (0 : Mat3) 2 2) / 3 ≤ 1 ∧
    (SP.init 0 0 0 0 false false).rij = (SP.init 0 0 0 0 false false).sij := by
  have h1 : ((0 : Mat3) 0 0 + (0 : Mat3) 1 1 + (0 : Mat3) 2 2) / 3 ≤ (1 : ℝ) := by
    simp
  have h100 : ((0 : Mat3) 0 0 + (0 : Mat3) 1 1 + (0 : Mat3) 2 2) / 3 ≤ (100 : ℝ) := by
    simp
  exact ⟨h1, (C3_two_floors_and_raw_p 0 Li2002.default (SP.init 0 0 0 0 false false)
    h1 h100).2.1⟩

/-! ## Continuity of the shape function across the degenerate branch (C8) -/

open Filter Topology

/-- The regular (`sin 3θ ≠ 0`) branch of `g_theta` as a function of
`st = sin 3θ` (source lines of the `else` branch of `g_theta`). -/
def gBranch (c st : ℝ) : ℝ :=
  (Real.sqrt ((1 + c ^ 2) ^ 2 + 4 * c * (1 - c ^ 2) * st) - (1 + c ^ 2)) /
    (2 * (1 - c) * st)

/-- The degenerate (`sin 3θ = 0`) closed form of `g_theta`. -/
def gDegen (c : ℝ) : ℝ := c * (1 + c) / (1 + c ^ 2)

/-- The regular branch of `dg_theta` as a function of `st = sin 3θ`. -/
def dgBranch (c st : ℝ) : ℝ :=
  c * (1 + c) / (st * Real.sqrt ((1 + c ^ 2) ^ 2 + 4 * c * (1 - c ^ 2) * st)) -
    (Real.sqrt ((1 + c ^ 2) ^ 2 + 4 * c * (1 - c ^ 2) * st) - (1 + c ^ 2)) /
      (2 * (1 - c) * st * st)

/-- The degenerate closed form of `dg_theta`. -/
def dgDegen (c : ℝ) : ℝ := -(c ^ 2) * (1 - c) * (1 + c) ^ 2 / (1 + c ^ 2) ^ 3

/-- `Li2002()` with the shape constant set to `c`. -/
def withShape (c : ℝ) : Li2002 :=
  { Li2002.default with params := { defaultParams with c := c } }

lemma arg_pos (c : ℝ) (h0 : 0 < c) (h1c : c < 1) (st : ℝ) (hst : |st| < 1 / 2) :
    0 < (1 + c ^ 2) ^ 2 + 4 * c * (1 - c ^ 2) * st := by
  have hB : 0 ≤ 4 * c * (1 - c ^ 2) := by nlinarith
  have hBA : 4 * c * (1 - c ^ 2) ≤ (1 + c ^ 2) ^ 2 := by
    nlinarith [sq_nonneg (c ^ 2 + 2 * c - 1)]
  have h1 : -(1 / 2 : ℝ) < st := by cases abs_lt.mp hst; linarith
  have h2 : st < 1 / 2 := by cases abs_lt.mp hst; assumption
  nlinarith [sq_nonneg (1 + c ^ 2)]

lemma sqrt_tendsto_arg (c : ℝ) :
    Tendsto (fun st : ℝ => Real.sqrt ((1 + c ^ 2) ^ 2 + 4 * c * (1 - c ^ 2) * st))
      (nhds 0) (nhds (1 + c ^ 2)) := by
  have hc : Continuous fun st : ℝ => (1 + c ^ 2) ^ 2 + 4 * c * (1 - c ^ 2) * st := by
    continuity
  have h := (Real.continuous_sqrt.comp hc).tendsto 0
  simp only [Function.comp_def, mul_zero, add_zero] at h
  rwa [Real.sqrt_sq (by positivity)] at h

lemma small_punctured_mem :
    {st : ℝ | |st| < 1 / 2} ∩ {st : ℝ | st ≠ 0} ∈
      nhdsWithin (0 : ℝ) {st : ℝ | st ≠ 0} := by
  refine Filter.inter_mem ?_ self_mem_nhdsWithin
  refine mem_nhdsWithin_of_mem_nhds ?_
  have h : {st : ℝ | |st| < 1 / 2} = Metric.ball (0 : ℝ) (1 / 2) := by
    ext x; simp [Real.dist_eq]
  rw [h]
  exact Metric.ball_mem_nhds 0 (by norm_num)

lemma gBranch_eventually (c : ℝ) (h0 : 0 < c) (h1c : c < 1) :
    (fun st => gBranch c st) =ᶠ[nhdsWithin 0 {st : ℝ | st ≠ 0}]
      fun st => 4 * c * (1 - c ^ 2) / (2 * (1 - c) *
        (Real.sqrt ((1 + c ^ 2) ^ 2 + 4 * c * (1 - c ^ 2) * st) + (1 + c ^ 2))) := by
  refine Filter.eventuallyEq_of_mem small_punctured_mem ?_
  rintro st ⟨hst, hst0⟩
  have harg := arg_pos c h0 h1c st hst
  set A := 1 + c ^ 2 with hA
  set B := 4 * c * (1 - c ^ 2) with hB
  set S := Real.sqrt (A ^ 2 + B * st) with hS
  have hS2 : S ^ 2 = A ^ 2 + B * st := Real.sq_sqrt harg.le
  have hSpos : 0 < S := Real.sqrt_pos.mpr harg
  have hApos : 0 < A := by positivity
  have hK : (0 : ℝ) < 1 - c := by linarith
  have hstne : (st : ℝ) ≠ 0 := hst0
  show (S - A) / (2 * (1 - c) * st) = B / (2 * (1 - c) * (S + A))
  rw [div_eq_div_iff (by positivity) (by positivity)]
  linear_combination (2 * (1 - c)) * hS2

lemma gBranch_tendsto (c : ℝ) (h0 : 0 < c) (h1c : c < 1) :
    Tendsto (gBranch c) (nhdsWithin 0 {st : ℝ | st ≠ 0}) (nhds (gDegen c)) := by
  refine Tendsto.congr' (gBranch_eventually c h0 h1c).symm ?_
  have hA : (0 : ℝ) < 1 + c ^ 2 := by positivity
  have hden : Tendsto (fun st : ℝ => 2 * (1 - c) *
      (Real.sqrt ((1 + c ^ 2) ^ 2 + 4 * c * (1 - c ^ 2) * st) + (1 + c ^ 2)))
      (nhds 0) (nhds (2 * (1 - c) * ((1 + c ^ 2) + (1 + c ^ 2)))) :=
    ((sqrt_tendsto_arg c).add tendsto_const_nhds).const_mul _
  have hdne : 2 * (1 - c) * ((1 + c ^ 2) + (1 + c ^ 2)) ≠ 0 := by
    have h : (0 : ℝ) < 1 - c := by linarith
    positivity
  have hnum : Tendsto (fun _ : ℝ => 4 * c * (1 - c ^ 2)) (nhds 0)
      (nhds (4 * c * (1 - c ^ 2))) := tendsto_const_nhds
  have h := Filter.Tendsto.div hnum hden hdne
  have hval : 4 * c * (1 - c ^ 2) / (2 * (1 - c) * ((1 + c ^ 2) + (1 + c ^ 2))) =
      gDegen c := by
    have hc : (0 : ℝ) < 1 - c := by linarith
    rw [gDegen, div_eq_div_iff (by positivity) (by positivity)]
    ring
  rw [hval] at h
  exact h.mono_left nhdsWithin_le_nhds

lemma dgBranch_eventually (c : ℝ) (h0 : 0 < c) (h1c : c < 1) :
    (fun st => dgBranch c st) =ᶠ[nhdsWithin 0 {st : ℝ | st ≠ 0}]
      fun st => -((4 * c * (1 - c ^ 2)) ^ 2) /
        (4 * (1 - c) * Real.sqrt ((1 + c ^ 2) ^ 2 + 4 * c * (1 - c ^ 2) * st) *
          (Real.sqrt ((1 + c ^ 2) ^ 2 + 4 * c * (1 - c ^ 2) * st) + (1 + c ^ 2)) ^ 2) := by
  refine Filter.eventuallyEq_of_mem small_punctured_mem ?_
  rintro st ⟨hst, hst0⟩
  have harg := arg_pos c h0 h1c st hst
  set A := 1 + c ^ 2 with hA
  set B := 4 * c * (1 - c ^ 2) with hB
  set S := Real.sqrt (A ^ 2 + B * st) with hS
  have hS2 : S ^ 2 = A ^ 2 + B * st := Real.sq_sqrt harg.le
  have hSpos : 0 < S := Real.sqrt_pos.mpr harg
  have hApos : 0 < A := by positivity
  have hK : (0 : ℝ) < 1 - c := by linarith
  have hstne : (st : ℝ) ≠ 0 := hst0
  have hSA : 0 < S + A := by linarith
  show c * (1 + c) / (st * S) - (S - A) / (2 * (1 - c) * st * st) =
    -(B ^ 2) / (4 * (1 - c) * S * (S + A) ^ 2)
  have hB4 : c * (1 + c) = B / (4 * (1 - c)) := by
    rw [eq_div_iff (by positivity), hB]
    ring
  clear_value A B S
  rw [hB4, div_div]
  rw [div_sub_div _ _ (by positivity) (by positivity),
    div_eq_div_iff (by positivity) (by positivity)]
  linear_combination
    (8 * (1 - c) ^ 2 * st * S * (-2 * S ^ 2 - 2 * A * S - B * st)) * hS2

lemma dgBranch_tendsto (c : ℝ) (h0 : 0 < c) (h1c : c < 1) :
    Tendsto (dgBranch c) (nhdsWithin 0 {st : ℝ | st ≠ 0}) (nhds (dgDegen c)) := by
  refine Tendsto.congr' (dgBranch_eventually c h0 h1c).symm ?_
  have hK : (0 : ℝ) < 1 - c := by linarith
  have hA : (0 : ℝ) < 1 + c ^ 2 := by positivity
  have hden : Tendsto (fun st : ℝ => 4 * (1 - c) *
      Real.sqrt ((1 + c ^ 2) ^ 2 + 4 * c * (1 - c ^ 2) * st) *
      (Real.sqrt ((1 + c ^ 2) ^ 2 + 4 * c * (1 - c ^ 2) * st) + (1 + c ^ 2)) ^ 2)
      (nhds 0) (nhds (4 * (1 - c) * (1 + c ^ 2) * ((1 + c ^ 2) + (1 + c ^ 2)) ^ 2)) :=
    (((sqrt_tendsto_arg c).const_mul (4 * (1 - c))).mul
      (((sqrt_tendsto_arg c).add tendsto_const_nhds).pow 2))
  have hdne : 4 * (1 - c) * (1 + c ^ 2) * ((1 + c ^ 2) + (1 + c ^ 2)) ^ 2 ≠ 0 := by
    positivity
  have hnum : Tendsto (fun _ : ℝ => -((4 * c * (1 - c ^ 2)) ^ 2)) (nhds 0)
      (nhds (-((4 * c * (1 - c ^ 2)) ^ 2))) := tendsto_const_nhds
  have h := Filter.Tendsto.div hnum hden hdne
  have hval : -((4 * c * (1 - c ^ 2)) ^ 2) /
      (4 * (1 - c) * (1 + c ^ 2) * ((1 + c ^ 2) + (1 + c ^ 2)) ^ 2) = dgDegen c := by
    rw [dgDegen, div_eq_div_iff (by positivity) (by positivity)]
    ring
  rw [hval] at h
  exact h.mono_left nhdsWithin_le_nhds

lemma Lode_angle_zero_matrix : Li2002.Lode_angle (0 : Mat3) = 0 := by
  simp [Li2002.Lode_angle, sumSq]

/-- C8: continuity of `g_theta` and `dg_theta` across the `sin 3θ = 0`
branch boundary.  The regular-branch expressions (exactly the `else`
branches of the source, as functions of `st = sin 3θ`) tend, as `st → 0`,
to the degenerate closed forms `c(1+c)/(1+c²)` and
`-c²(1-c)(1+c)²/(1+c²)³`, and at `θ = 0` the functions return exactly
those degenerate closed forms. -/
theorem C8_branch_continuity (c : ℝ) (h0 : 0 < c) (h1c : c < 1) :
    Tendsto (gBranch c) (nhdsWithin 0 {st : ℝ | st ≠ 0}) (nhds (gDegen c)) ∧
    Tendsto (dgBranch c) (nhdsWithin 0 {st : ℝ | st ≠ 0}) (nhds (dgDegen c)) ∧
    (withShape c).g_theta (0 : Mat3) = gDegen c ∧
    (withShape c).dg_theta 0 = dgDegen c ∧
    (∀ ds : Mat3, Real.sin (3 * Li2002.Lode_angle ds) ≠ 0 →
      (withShape c).g_theta ds = gBranch c (Real.sin (3 * Li2002.Lode_angle ds))) ∧
    (∀ θ : ℝ, Real.sin (3 * θ) ≠ 0 →
      (withShape c).dg_theta θ = dgBranch c (Real.sin (3 * θ))) := by
  refine ⟨gBranch_tendsto c h0 h1c, dgBranch_tendsto c h0 h1c, ?_, ?_, ?_, ?_⟩
  · show (if Real.sin (3 * Li2002.Lode_angle (0 : Mat3)) = 0 then _ else _) = _
    rw [Lode_angle_zero_matrix]
    simp [gDegen, withShape]
  · show (if Real.sin (3 * (0 : ℝ)) = 0 then _ else _) = _
    simp [dgDegen, withShape]
  · intro ds hne
    show (if Real.sin (3 * Li2002.Lode_angle ds) = 0 then _ else _) = _
    rw [if_neg hne]
    rfl
  · intro θ hne
    show (if Real.sin (3 * θ) = 0 then _ else _) = _
    rw [if_neg hne]
    rfl

/-- Witness for C8 at the default shape constant `c = 3/4`. -/
theorem C8_branch_continuity_witness :
    (0 : ℝ) < 3 / 4 ∧ (3 / 4 : ℝ) < 1 ∧
    (Tendsto (gBranch (3 / 4)) (nhdsWithin 0 {st : ℝ | st ≠ 0})
        (nhds (gDegen (3 / 4))) ∧
      Tendsto (dgBranch (3 / 4)) (nhdsWithin 0 {st : ℝ | st ≠ 0})
        (nhds (dgDegen (3 / 4))) ∧
      (withShape (3 / 4)).g_theta (0 : Mat3) = gDegen (3 / 4) ∧
      (withShape (3 / 4)).dg_theta 0 = dgDegen (3 / 4) ∧
      (∀ ds : Mat3, Real.sin (3 * Li2002.Lode_angle ds) ≠ 0 →
        (withShape (3 / 4)).g_theta ds =
          gBranch (3 / 4) (Real.sin (3 * Li2002.Lode_angle ds))) ∧
      (∀ θ : ℝ, Real.sin (3 * θ) ≠ 0 →
        (withShape (3 / 4)).dg_theta θ = dgBranch (3 / 4) (Real.sin (3 * θ)))) :=
  ⟨by norm_num, by norm_num,
    C8_branch_continuity (3 / 4) (by norm_num) (by norm_num)⟩

/-! ## Monotonicity of `H2` and `L1` (C4) -/

lemma sin_three_mem_Icc (θ : ℝ) : -1 ≤ Real.sin (3 * θ) ∧ Real.sin (3 * θ) ≤ 1 :=
  ⟨Real.neg_one_le_sin _, Real.sin_le_one _⟩

lemma g_theta_nonneg (md : Li2002) (hc0 : 0 < md.params.c) (hc1 : md.params.c < 1)
    (ds : Mat3) : 0 ≤ md.g_theta ds := by
  simp only [Li2002.g_theta]
  set c := md.params.c
  set st := Real.sin (3 * Li2002.Lode_angle ds) with hst
  have hrange : -1 ≤ st ∧ st ≤ 1 := sin_three_mem_Icc _
  have hA : (0 : ℝ) < 1 + c ^ 2 := by positivity
  have hB : (0 : ℝ) ≤ 4 * c * (1 - c ^ 2) := by nlinarith
  split_ifs with h0
  · positivity
  · rcases lt_or_gt_of_ne h0 with hneg | hpos
    · have hle : (1 + c ^ 2) ^ 2 + 4 * c * (1 - c ^ 2) * st ≤ (1 + c ^ 2) ^ 2 := by
        nlinarith
      have hs : Real.sqrt ((1 + c ^ 2) ^ 2 + 4 * c * (1 - c ^ 2) * st) ≤ 1 + c ^ 2 := by
        calc Real.sqrt ((1 + c ^ 2) ^ 2 + 4 * c * (1 - c ^ 2) * st) ≤
            Real.sqrt ((1 + c ^ 2) ^ 2) := Real.sqrt_le_sqrt hle
          _ = 1 + c ^ 2 := Real.sqrt_sq hA.le
      have hd : 2 * (1 - c) * st < 0 := by nlinarith
      exact div_nonneg_of_nonpos (by linarith) hd.le
    · have hge : (1 + c ^ 2) ^ 2 ≤ (1 + c ^ 2) ^ 2 + 4 * c * (1 - c ^ 2) * st := by
        nlinarith
      have hs : 1 + c ^ 2 ≤ Real.sqrt ((1 + c ^ 2) ^ 2 + 4 * c * (1 - c ^ 2) * st) := by
        calc (1 + c ^ 2) = Real.sqrt ((1 + c ^ 2) ^ 2) := (Real.sqrt_sq hA.le).symm
          _ ≤ _ := Real.sqrt_le_sqrt hge
      have hd : 0 < 2 * (1 - c) * st := by nlinarith
      exact div_nonneg (by linarith) hd.le

lemma elastic_modulus_nonneg (md : Li2002) (hG0 : 0 ≤ md.params.G0) (he : -1 < md.e)
    (p : ℝ) : 0 ≤ (md.elastic_modulus md.e p).1 := by
  unfold Li2002.elastic_modulus
  have h1 : (0 : ℝ) < 1 + md.e := by linarith
  have h2 : (0 : ℝ) ≤ (2.97 - md.e) ^ 2 := sq_nonneg _
  exact mul_nonneg (div_nonneg (mul_nonneg hG0 h2) h1.le) (Real.sqrt_nonneg _)

lemma smsMech1_sp_keeps2 (md : Li2002) (sp : SP) :
    (md.smsMech1 sp).2.R = sp.R ∧ (md.smsMech1 sp).2.sij = sp.sij ∧
    (md.smsMech1 sp).2.dp = sp.dp ∧ (md.smsMech1 sp).2.rho2_ratio = sp.rho2_ratio := by
  unfold Li2002.smsMech1
  split_ifs <;> simp

lemma smsMech2_sp_keeps2 (md : Li2002) (sp : SP) :
    (md.smsMech2 sp).2.R = sp.R ∧ (md.smsMech2 sp).2.sij = sp.sij ∧
    (md.smsMech2 sp).2.dp = sp.dp ∧
    (md.smsMech2 sp).2.elastic_flag1 = sp.elastic_flag1 := by
  unfold Li2002.smsMech2
  split_ifs <;> simp
  all_goals try (split_ifs <;> simp)

lemma sms_sp_keeps2 (md : Li2002) (sp : SP) :
    (md.set_mapping_stress sp).2.R = sp.R ∧ (md.set_mapping_stress sp).2.sij = sp.sij ∧
    (md.set_mapping_stress sp).2.dp = sp.dp := by
  unfold Li2002.set_mapping_stress
  split_ifs <;>
    exact ⟨((smsMech2_sp_keeps2 _ _).1).trans (smsMech1_sp_keeps2 _ _).1,
      ((smsMech2_sp_keeps2 _ _).2.1).trans (smsMech1_sp_keeps2 _ _).2.1,
      ((smsMech2_sp_keeps2 _ _).2.2.1).trans (smsMech1_sp_keeps2 _ _).2.2.1⟩

lemma sms_H2_mono (md : Li2002) (sp : SP) :
    md.H2 ≤ (md.set_mapping_stress sp).1.H2 := by
  have key : ∀ m : Li2002,
      m.H2 ≤ ((m.smsMech1 sp).1.smsMech2 (m.smsMech1 sp).2).1.H2 := by
    intro m
    have e1 : (m.smsMech1 sp).1.H2 = m.H2 := (smsMech1_model_keeps m sp).2.2.2.2.2.2.2
    calc m.H2 = (m.smsMech1 sp).1.H2 := e1.symm
      _ ≤ _ := smsMech2_H2_mono _ _
  simp only [Li2002.set_mapping_stress]
  split_ifs <;>
    first
      | exact key { md with alpha := sp.rij, beta := sp.p }
      | exact key { md with alpha := sp.rij }
      | exact key { md with beta := sp.p }
      | exact key md

lemma set_parameters_Kp2_b_nonneg (md : Li2002) (sp1 : SP)
    (hG0 : 0 ≤ md.params.G0) (he : -1 < md.e) (hM : 0 ≤ md.params.M)
    (hh4 : 0 ≤ md.params.h4) (hc0 : 0 < md.params.c) (hc1 : md.params.c < 1)
    (hR1 : 0 ≤ sp1.R) : 0 ≤ (md.set_parameters sp1).Kp2_b := by
  have hG := elastic_modulus_nonneg md hG0 he sp1.p
  have hg := g_theta_nonneg md hc0 hc1 sp1.sij
  simp only [Li2002.set_parameters]
  split_ifs <;> try norm_num
  all_goals
    rename_i hcond hD2
    clear hD2
    rw [hcond.1, Real.one_rpow]
    exact mul_nonneg (mul_nonneg (mul_nonneg (mul_nonneg hG hh4)
      (div_nonneg (mul_nonneg hM hg) hR1)) zero_le_one) hcond.2.le

lemma nm_TZ_keep_Kp2_b (md : Li2002) (sp : SP) :
    (md.set_parameter_nm sp).Kp2_b = sp.Kp2_b ∧
    (md.set_parameter_TZ sp).Kp2_b = sp.Kp2_b := by
  constructor
  · unfold Li2002.set_parameter_nm
    split_ifs <;> simp
    all_goals try (split_ifs <;> simp)
  · unfold Li2002.set_parameter_TZ
    split_ifs <;> simp
    all_goals try (split_ifs <;> simp)
    all_goals try (split_ifs <;> simp)

lemma evalSP_Kp2_b_nonneg (md : Li2002) (sp : SP)
    (hG0 : 0 ≤ md.params.G0) (he : -1 < md.e) (hM : 0 ≤ md.params.M)
    (hh4 : 0 ≤ md.params.h4) (hc0 : 0 < md.params.c) (hc1 : md.params.c < 1)
    (hR : 0 ≤ sp.R) : 0 ≤ (md.evalSP sp).2.Kp2_b := by
  have h1 : (md.evalSP sp).2.Kp2_b =
      ((md.set_mapping_stress sp).1.set_parameters (md.set_mapping_stress sp).2).Kp2_b := by
    unfold Li2002.evalSP
    rw [(nm_TZ_keep_Kp2_b _ _).2, (nm_TZ_keep_Kp2_b _ _).1]
  rw [h1]
  have hp := sms_model_keeps md sp
  apply set_parameters_Kp2_b_nonneg
  · rw [hp.2.2.1]; exact hG0
  · rw [hp.2.2.2.2]; exact he
  · rw [hp.2.2.1]; exact hM
  · rw [hp.2.2.1]; exact hh4
  · rw [hp.2.2.1]; exact hc0
  · rw [hp.2.2.1]; exact hc1
  · rw [(sms_sp_keeps2 md sp).1]; exact hR

/-- C4 amended: `set_mapping_stress` never decreases `H2` (its only write is
the ratchet `H2 := max(H2, p)`); and `update_parameters` never decreases
`L1` (resp. `H2`) on any call whose recomputed loading index
`dL1 = Tij:dε` (resp. `dL2 = Zij:dε`) is nonnegative, given the sign
conditions on the material constants that the defaults satisfy
(`G0, M, h4 ≥ 0`, `0 < c < 1`, `e > -1`, and the snapshot's `R ≥ 0`, which
holds for every constructed snapshot). -/
theorem C4_H2_L1_monotone (md : Li2002) (sp : SP)
    (hG0 : 0 ≤ md.params.G0) (he : -1 < md.e) (hM : 0 ≤ md.params.M)
    (hh4 : 0 ≤ md.params.h4) (hc0 : 0 < md.params.c) (hc1 : md.params.c < 1)
    (hR : 0 ≤ sp.R)
    (hL1 : 0 ≤ ddot (md.evalSP sp).2.Tij (md.evalSP sp).2.dstrain)
    (hL2 : 0 ≤ ddot (md.evalSP sp).2.Zij (md.evalSP sp).2.dstrain) :
    md.H2 ≤ (md.set_mapping_stress sp).1.H2 ∧
    md.L1 ≤ (md.update_parameters sp).1.L1 ∧
    md.H2 ≤ (md.update_parameters sp).1.H2 := by
  have hKp2b := evalSP_Kp2_b_nonneg md sp hG0 he hM hh4 hc0 hc1 hR
  have hL1keep : (md.evalSP sp).1.L1 = md.L1 := by
    rw [evalSP_model]; exact (sms_model_keeps md sp).2.2.2.1
  have hH2mono : md.H2 ≤ (md.evalSP sp).1.H2 := by
    rw [evalSP_model]; exact sms_H2_mono md sp
  refine ⟨sms_H2_mono md sp, ?_, ?_⟩
  · simp only [Li2002.update_parameters]
    split_ifs <;> (try simp [hL1keep]) <;> (try linarith [hL1])
  · simp only [Li2002.update_parameters]
    split_ifs <;> (try simp) <;>
      (try nlinarith [mul_nonneg hKp2b hL2, hH2mono])

/-- Witness for C4's amended monotonicity at the default model and the zero
snapshot (both loading indices evaluate to `0` there). -/
theorem C4_H2_L1_monotone_witness :
    (0 : ℝ) ≤ Li2002.default.params.G0 ∧ (-1 : ℝ) < Li2002.default.e ∧
    (0 : ℝ) ≤ Li2002.default.params.M ∧ (0 : ℝ) ≤ Li2002.default.params.h4 ∧
    (0 : ℝ) < Li2002.default.params.c ∧ Li2002.default.params.c < 1 ∧
    (0 : ℝ) ≤ (SP.init 0 0 0 0 false false).R ∧
    (Li2002.default.H2 ≤
        (Li2002.default.set_mapping_stress (SP.init 0 0 0 0 false false)).1.H2 ∧
      Li2002.default.L1 ≤
        (Li2002.default.update_parameters (SP.init 0 0 0 0 false false)).1.L1 ∧
      Li2002.default.H2 ≤
        (Li2002.default.update_parameters (SP.init 0 0 0 0 false false)).1.H2) := by
  have hG0 : (0 : ℝ) ≤ Li2002.default.params.G0 := by norm_num [Li2002.default, defaultParams]
  have he : (-1 : ℝ) < Li2002.default.e := by norm_num [Li2002.default]
  have hM : (0 : ℝ) ≤ Li2002.default.params.M := by norm_num [Li2002.default, defaultParams]
  have hh4 : (0 : ℝ) ≤ Li2002.default.params.h4 := by norm_num [Li2002.default, defaultParams]
  have hc0 : (0 : ℝ) < Li2002.default.params.c := by norm_num [Li2002.default, defaultParams]
  have hc1 : Li2002.default.params.c < 1 := by norm_num [Li2002.default, defaultParams]
  have hR : (0 : ℝ) ≤ (SP.init 0 0 0 0 false false).R := Real.sqrt_nonneg _
  have hd : (Li2002.default.evalSP (SP.init 0 0 0 0 false false)).2.dstrain = 0 := by
    rw [(evalSP_sp_keeps _ _).2.2]; rfl
  have hT : 0 ≤ ddot (Li2002.default.evalSP (SP.init 0 0 0 0 false false)).2.Tij
      (Li2002.default.evalSP (SP.init 0 0 0 0 false false)).2.dstrain := by
    rw [hd]; simp [ddot]
  have hZ : 0 ≤ ddot (Li2002.default.evalSP (SP.init 0 0 0 0 false false)).2.Zij
      (Li2002.default.evalSP (SP.init 0 0 0 0 false false)).2.dstrain := by
    rw [hd]; simp [ddot]
  exact ⟨hG0, he, hM, hh4, hc0, hc1, hR,
    C4_H2_L1_monotone Li2002.default (SP.init 0 0 0 0 false false)
      hG0 he hM hh4 hc0 hc1 hR hT hZ⟩

/-! ## A concrete `update_parameters` call that decreases `L1` (C4) -/

/-- A `Li2002` instance (`c = 1`, `rlambdac = 0`, other constants default)
mid-run: `beta` at the current mean stress, `H1 = 0`, `L1 = 0`,
void ratio at the critical-state intercept `eg`. -/
def mC4 : Li2002 :=
  { params := { defaultParams with c := 1, rlambdac := 0 }
    stress := 0, strain := 0, alpha := 0, beta := 60, H1 := 0, H2 := 60,
    L1 := 0, e := 0.934 }

/-- Stress with `p = 60` and deviator `diag(20√3, -20√3, 0)`, giving `R = 1`. -/
def stressC4 : Mat3 :=
  Matrix.of ![![60 + 20 * Real.sqrt 3, 0, 0], ![0, 60 - 20 * Real.sqrt 3, 0],
    ![0, 0, 60]]

/-- A pure axial strain increment. -/
def dstrC4 : Mat3 := Matrix.of ![![0, 0, 0], ![0, 0, 0], ![0, 0, 1]]

/-- The committed snapshot handed to `update_parameters`. -/
def spC4 : SP := SP.init 0 stressC4 dstrC4 0 false false

/-- The deviatoric-ratio diagonal entry `20√3/60 = √3/3`. -/
def r0C4 : ℝ := Real.sqrt 3 / 3

/-- The snapshot's deviatoric ratio tensor. -/
def rijC4 : Mat3 := Matrix.of ![![r0C4, 0, 0], ![0, -r0C4, 0], ![0, 0, 0]]

/-- The snapshot's deviatoric stress tensor. -/
def sijC4 : Mat3 :=
  Matrix.of ![![20 * Real.sqrt 3, 0, 0], ![0, -(20 * Real.sqrt 3), 0], ![0, 0, 0]]

lemma sqrt3_sq : Real.sqrt 3 ^ 2 = 3 := Real.sq_sqrt (by norm_num)

lemma r0C4_sq : r0C4 ^ 2 = 1 / 3 := by
  rw [r0C4, div_pow, sqrt3_sq]
  norm_num

lemma spC4_p : spC4.p = 60 := by
  show (stressC4 0 0 + stressC4 1 1 + stressC4 2 2) / 3 = 60
  rw [show stressC4 0 0 = 60 + 20 * Real.sqrt 3 from rfl,
    show stressC4 1 1 = 60 - 20 * Real.sqrt 3 from rfl,
    show stressC4 2 2 = 60 from rfl]
  ring

lemma spC4_sij : spC4.sij = sijC4 := by
  show stressC4 - ((stressC4 0 0 + stressC4 1 1 + stressC4 2 2) / 3) • (1 : Mat3) =
    sijC4
  rw [show (stressC4 0 0 + stressC4 1 1 + stressC4 2 2) / 3 = (60 : ℝ) from spC4_p]
  ext i j
  fin_cases i <;> fin_cases j <;>
    simp [stressC4, sijC4, Matrix.sub_apply, Matrix.smul_apply, Matrix.one_apply,
      Matrix.vecHead, Matrix.vecTail] <;> ring

lemma spC4_rij : spC4.rij = rijC4 := by
  show matDiv (spC4.sij) (max spC4.p 1) = rijC4
  rw [spC4_sij, spC4_p, max_eq_left (by norm_num : (1 : ℝ) ≤ 60)]
  ext i j
  fin_cases i <;> fin_cases j <;>
    simp [sijC4, rijC4, matDiv, r0C4, Matrix.vecHead, Matrix.vecTail] <;> ring

lemma sumSq_rijC4 : sumSq rijC4 = 2 / 3 := by
  simp only [sumSq, Fin.sum_univ_three]
  rw [show rijC4 0 0 = r0C4 from rfl, show rijC4 0 1 = 0 from rfl,
    show rijC4 0 2 = 0 from rfl, show rijC4 1 0 = 0 from rfl,
    show rijC4 1 1 = -r0C4 from rfl, show rijC4 1 2 = 0 from rfl,
    show rijC4 2 0 = 0 from rfl, show rijC4 2 1 = 0 from rfl,
    show rijC4 2 2 = 0 from rfl, neg_sq, r0C4_sq]
  norm_num

lemma spC4_R : spC4.R = 1 := by
  show Real.sqrt (1.5 * sumSq spC4.rij) = 1
  rw [spC4_rij, sumSq_rijC4, show (1.5 : ℝ) * (2 / 3) = 1 by norm_num, Real.sqrt_one]

lemma spC4_dp : spC4.dp = 0 := by
  show ((stressC4 + 0) 0 0 + (stressC4 + 0) 1 1 + (stressC4 + 0) 2 2) / 3 -
    (stressC4 0 0 + stressC4 1 1 + stressC4 2 2) / 3 = 0
  simp

lemma det_rijC4 : rijC4.det = 0 := by
  rw [Matrix.det_fin_three, show rijC4 0 0 = r0C4 from rfl,
    show rijC4 0 1 = 0 from rfl, show rijC4 0 2 = 0 from rfl,
    show rijC4 1 0 = 0 from rfl, show rijC4 1 1 = -r0C4 from rfl,
    show rijC4 1 2 = 0 from rfl, show rijC4 2 0 = 0 from rfl,
    show rijC4 2 1 = 0 from rfl, show rijC4 2 2 = 0 from rfl]
  ring

lemma det_sijC4 : sijC4.det = 0 := by
  rw [Matrix.det_fin_three, show sijC4 0 0 = 20 * Real.sqrt 3 from rfl,
    show sijC4 0 1 = 0 from rfl, show sijC4 0 2 = 0 from rfl,
    show sijC4 1 0 = 0 from rfl, show sijC4 1 1 = -(20 * Real.sqrt 3) from rfl,
    show sijC4 1 2 = 0 from rfl, show sijC4 2 0 = 0 from rfl,
    show sijC4 2 1 = 0 from rfl, show sijC4 2 2 = 0 from rfl]
  ring

/-- A deviatoric tensor with vanishing determinant has `J3 = 0`, hence lies at
Lode angle zero in both branches of `Lode_angle`. -/
lemma Lode_det_zero (ds : Mat3) (h : ds.det = 0) : Li2002.Lode_angle ds = 0 := by
  simp only [Li2002.Lode_angle, h, neg_zero, zero_div, zero_mul]
  split_ifs <;> norm_num [Real.arcsin_zero]

/-- At shape constant `c = 1` the degenerate branch of `g_theta` returns `1`. -/
lemma g_theta_c1_detzero (md : Li2002) (hc : md.params.c = 1) (ds : Mat3)
    (h : ds.det = 0) : md.g_theta ds = 1 := by
  simp only [Li2002.g_theta, Lode_det_zero ds h, mul_zero, Real.sin_zero, if_pos,
    hc]
  norm_num

/-- At shape constant `c = 1` the degenerate branch of `dg_theta` returns `0`. -/
lemma dg_theta_c1_zero (md : Li2002) (hc : md.params.c = 1) : md.dg_theta 0 = 0 := by
  simp only [Li2002.dg_theta, mul_zero, Real.sin_zero, if_pos, hc]
  norm_num

/-- The model after `set_mapping_stress`: only `H1` is redefined (to
`R̄/ḡ = 1`), since the stress already sits outside surface 1. -/
def m1C4 : Li2002 := { mC4 with H1 := 1 }

/-- The snapshot after mechanism 1 of `set_mapping_stress`. -/
def sp1aC4 : SP :=
  { spC4 with rij_bar := rijC4, R_bar := 1, g_bar := 1, rho1_ratio := 1 }

/-- The snapshot after all of `set_mapping_stress` (mechanism 2 is declared
elastic because `p = beta`). -/
def sp1C4 : SP := { sp1aC4 with elastic_flag2 := true }

lemma hmapC4 : mC4.mapping_r 1 spC4.rij mC4.alpha = (rijC4, 1, 1) := by
  simp only [Li2002.mapping_r]
  rw [show mC4.alpha = (0 : Mat3) from rfl, sub_zero, one_smul, zero_add, spC4_rij]
  rw [sumSq_rijC4, show (1.5 : ℝ) * (2 / 3) = 1 by norm_num, Real.sqrt_one,
    g_theta_c1_detzero mC4 rfl rijC4 det_rijC4]

lemma hnotsmallC4 : ¬ npnorm (spC4.rij - mC4.alpha) < 1e-6 := by
  rw [show mC4.alpha = (0 : Mat3) from rfl, sub_zero, spC4_rij, npnorm, sumSq_rijC4]
  have h1 : Real.sqrt ((1e-6 : ℝ) ^ 2) ≤ Real.sqrt (2 / 3) :=
    Real.sqrt_le_sqrt (by norm_num)
  rw [Real.sqrt_sq (by norm_num)] at h1
  exact not_lt.mpr h1

lemma hF1posC4 : 0 < mC4.F1_boundary_surface 1 spC4.rij mC4.alpha := by
  simp only [Li2002.F1_boundary_surface]
  rw [hmapC4, show mC4.H1 = (0 : ℝ) from rfl]
  norm_num

lemma hmech1C4 : mC4.smsMech1 spC4 = (m1C4, sp1aC4) := by
  simp only [Li2002.smsMech1]
  rw [if_neg hnotsmallC4, if_pos hF1posC4, hmapC4]
  rw [show ((rijC4, (1 : ℝ), (1 : ℝ)).2.1 / (rijC4, (1 : ℝ), (1 : ℝ)).2.2 : ℝ) = 1
    by norm_num]
  rfl

lemma hmech2C4 : m1C4.smsMech2 sp1aC4 = (m1C4, sp1C4) := by
  simp only [Li2002.smsMech2]
  rw [if_pos (show |sp1aC4.p - m1C4.beta| = 0 by
    rw [show sp1aC4.p = (60 : ℝ) from spC4_p, show m1C4.beta = (60 : ℝ) from rfl]
    norm_num)]
  rfl

lemma hsmsC4 : mC4.set_mapping_stress spC4 = (m1C4, sp1C4) := by
  simp only [Li2002.set_mapping_stress, show spC4.elastic_flag1 = false from rfl,
    show spC4.elastic_flag2 = false from rfl, Bool.false_eq_true, if_false,
    hmech1C4]
  exact hmech2C4

/-- The elastic shear modulus at `e = 0.934`, `p = 60` (floored to `pmin = 100`). -/
def GeC4 : ℝ := 125 * (2.97 - 0.934) ^ 2 / (1 + 0.934) * Real.sqrt (100 * 101e3)

/-- The hardening coefficient `h = h1 - h2 e` at `e = 0.934` (the `fL` factor
degenerates to `1` at `L1 = 0`, `rho1_ratio = 1`). -/
def hC4v : ℝ := 3.15 - 3.05 * 0.934

lemma hGeC4 : (m1C4.elastic_modulus m1C4.e sp1C4.p).1 = GeC4 := by
  simp only [Li2002.elastic_modulus]
  rw [show sp1C4.p = (60 : ℝ) from spC4_p, show m1C4.e = (0.934 : ℝ) from rfl,
    show m1C4.params.pmin = (100 : ℝ) from rfl,
    show m1C4.params.pr = (101e3 : ℝ) from rfl,
    show m1C4.params.G0 = (125 : ℝ) from rfl,
    max_eq_right (by norm_num : (60 : ℝ) ≤ 100)]
  rfl

lemma hKeC4 : (m1C4.elastic_modulus m1C4.e sp1C4.p).2 = GeC4 * (5 / 3) := by
  simp only [Li2002.elastic_modulus]
  rw [show sp1C4.p = (60 : ℝ) from spC4_p, show m1C4.e = (0.934 : ℝ) from rfl,
    show m1C4.params.pmin = (100 : ℝ) from rfl,
    show m1C4.params.pr = (101e3 : ℝ) from rfl,
    show m1C4.params.G0 = (125 : ℝ) from rfl,
    show m1C4.params.nu = (0.25 : ℝ) from rfl,
    max_eq_right (by norm_num : (60 : ℝ) ≤ 100)]
  rw [show (125 * (2.97 - 0.934) ^ 2 / (1 + 0.934) *
    Real.sqrt (100 * 101e3) : ℝ) = GeC4 from rfl]
  ring

lemma hpsiC4 : m1C4.state_parameter m1C4.e sp1C4.p = 0 := by
  simp only [Li2002.state_parameter]
  rw [show m1C4.params.rlambdac = (0 : ℝ) from rfl,
    show m1C4.params.eg = (0.934 : ℝ) from rfl,
    show m1C4.e = (0.934 : ℝ) from rfl, zero_mul]
  norm_num

lemma hgC4 : m1C4.g_theta sp1C4.sij = 1 := by
  rw [show sp1C4.sij = sijC4 from spC4_sij]
  exact g_theta_c1_detzero m1C4 rfl sijC4 det_sijC4

/-- The snapshot after `set_parameters`. -/
def sp2C4 : SP :=
  { sp1C4 with
    Ge := GeC4, Ke := GeC4 * (5 / 3), psi := 0, g := 1, h := hC4v,
    Kp1 := GeC4 * hC4v * (1 / 4), Kp1_b := GeC4 * hC4v * (1 / 4),
    D1 := 0.082, Kp2_b := 0 }

lemma hparamsC4 : m1C4.set_parameters sp1C4 = sp2C4 := by
  simp only [Li2002.set_parameters,
    show sp1C4.elastic_flag1 = false from rfl,
    show sp1C4.elastic_flag2 = true from rfl, Bool.false_eq_true, if_false,
    true_or, if_true]
  rw [hGeC4, hKeC4, hpsiC4, hgC4]
  simp only [show m1C4.L1 = (0 : ℝ) from rfl, show m1C4.e = (0.934 : ℝ) from rfl,
    show m1C4.params.b1 = (0.005 : ℝ) from rfl,
    show m1C4.params.b2 = (2 : ℝ) from rfl,
    show m1C4.params.b3 = (0.01 : ℝ) from rfl,
    show m1C4.params.h1 = (3.15 : ℝ) from rfl,
    show m1C4.params.h2 = (3.05 : ℝ) from rfl,
    show m1C4.params.h3 = (2.2 : ℝ) from rfl,
    show m1C4.params.M = (1.25 : ℝ) from rfl,
    show m1C4.params.n = (1.1 : ℝ) from rfl,
    show m1C4.params.m = (3.5 : ℝ) from rfl,
    show m1C4.params.d1 = (0.41 : ℝ) from rfl,
    show sp1C4.rho1_ratio = (1 : ℝ) from rfl,
    show sp1C4.g_bar = (1 : ℝ) from rfl,
    show sp1C4.R_bar = (1 : ℝ) from rfl,
    show sp1C4.R = (1 : ℝ) from spC4_R]
  simp only [sp2C4, hC4v, SP.mk.injEq]
  norm_num [Real.exp_zero, Real.sqrt_one]
  exact ⟨spC4_R.symm, rfl, rfl, rfl, rfl, rfl⟩

lemma sumSq_smul (t : ℝ) (A : Mat3) : sumSq (t • A) = t ^ 2 * sumSq A := by
  simp only [sumSq, Matrix.smul_apply, smul_eq_mul, mul_pow, Finset.mul_sum]

lemma hdF1C4 : m1C4.dF1_r rijC4 1 0 1 0 = (1.5 : ℝ) • rijC4 := by
  simp only [Li2002.dF1_r]
  rw [if_neg (by
    rw [show m1C4.params.eps = (1e-6 : ℝ) from rfl]
    norm_num)]
  simp only [mul_zero, zero_mul, Real.sin_zero, add_zero, zero_smul, mul_one,
    one_mul]
  norm_num

lemma trace3_smul_rijC4 : trace3 ((1.5 : ℝ) • rijC4) = 0 := by
  simp only [trace3, Matrix.smul_apply, show rijC4 0 0 = r0C4 from rfl,
    show rijC4 1 1 = -r0C4 from rfl, show rijC4 2 2 = 0 from rfl, smul_eq_mul]
  ring

lemma npnorm_smul_rijC4 : npnorm ((1.5 : ℝ) • rijC4) = Real.sqrt (3 / 2) := by
  rw [npnorm, sumSq_smul, sumSq_rijC4, show (1.5 : ℝ) ^ 2 * (2 / 3) = 3 / 2 by
    norm_num]

lemma npnorm_rijC4 : npnorm rijC4 = Real.sqrt (2 / 3) := by
  rw [npnorm, sumSq_rijC4]

/-- The mechanism-1 flow direction of the concrete snapshot. -/
def nijC4 : Mat3 := matDiv ((1.5 : ℝ) • rijC4) (Real.sqrt (3 / 2))

/-- The mechanism-2 flow direction of the concrete snapshot. -/
def mijC4 : Mat3 := matDiv rijC4 (Real.sqrt (2 / 3))

/-- The snapshot after `set_parameter_nm`. -/
def sp3C4 : SP := { sp2C4 with nij := nijC4, mij := mijC4 }

lemma hnmC4 : m1C4.set_parameter_nm sp2C4 = sp3C4 := by
  simp only [Li2002.set_parameter_nm,
    show sp2C4.elastic_flag1 = false from rfl, Bool.false_eq_true, if_false]
  rw [show sp2C4.sij = sijC4 from spC4_sij, Lode_det_zero sijC4 det_sijC4,
    dg_theta_c1_zero m1C4 rfl,
    show sp2C4.rij_bar = rijC4 from rfl, show sp2C4.R_bar = (1 : ℝ) from rfl,
    show sp2C4.g_bar = (1 : ℝ) from rfl, hdF1C4, trace3_smul_rijC4]
  rw [zero_div, zero_smul, sub_zero, npnorm_smul_rijC4]
  rw [show sp2C4.rij = rijC4 from spC4_rij]
  simp only [npnorm_rijC4]
  rw [if_neg (Real.sqrt_pos.mpr (by norm_num : (0 : ℝ) < 2 / 3)).ne']
  simp only [sp3C4, nijC4, mijC4, SP.mk.injEq]
  repeat' apply And.intro
  all_goals first | exact trivial | rfl | exact spC4_sij.symm | exact spC4_rij.symm

/-- The projection `nr = n : r` of the concrete snapshot. -/
def nrC4 : ℝ := ddot nijC4 rijC4

lemma hnrC4 : nrC4 = 1 / Real.sqrt (3 / 2) := by
  have hS : Real.sqrt (3 / 2) ≠ 0 :=
    (Real.sqrt_pos.mpr (by norm_num : (0 : ℝ) < 3 / 2)).ne'
  simp only [nrC4, ddot, Fin.sum_univ_three]
  rw [show nijC4 0 0 = 1.5 * r0C4 / Real.sqrt (3 / 2) from rfl,
    show nijC4 0 1 = 1.5 * 0 / Real.sqrt (3 / 2) from rfl,
    show nijC4 0 2 = 1.5 * 0 / Real.sqrt (3 / 2) from rfl,
    show nijC4 1 0 = 1.5 * 0 / Real.sqrt (3 / 2) from rfl,
    show nijC4 1 1 = 1.5 * -r0C4 / Real.sqrt (3 / 2) from rfl,
    show nijC4 1 2 = 1.5 * 0 / Real.sqrt (3 / 2) from rfl,
    show nijC4 2 0 = 1.5 * 0 / Real.sqrt (3 / 2) from rfl,
    show nijC4 2 1 = 1.5 * 0 / Real.sqrt (3 / 2) from rfl,
    show nijC4 2 2 = 1.5 * 0 / Real.sqrt (3 / 2) from rfl,
    show rijC4 0 0 = r0C4 from rfl, show rijC4 0 1 = 0 from rfl,
    show rijC4 0 2 = 0 from rfl, show rijC4 1 0 = 0 from rfl,
    show rijC4 1 1 = -r0C4 from rfl, show rijC4 1 2 = 0 from rfl,
    show rijC4 2 0 = 0 from rfl, show rijC4 2 1 = 0 from rfl,
    show rijC4 2 2 = 0 from rfl]
  field_simp
  linear_combination (3 * Real.sqrt 2) * r0C4_sq

/-- The consistency numerator `Tu` of the concrete snapshot. -/
def TuC4 : Mat3 :=
  (2 * GeC4) • nijC4 - (GeC4 * (5 / 3) * (nrC4 + 0)) • (1 : Mat3)

/-- The consistency denominator `Td` of the concrete snapshot. -/
def TdC4 : ℝ :=
  2 * GeC4 - Real.sqrt (2 / 3) * (GeC4 * (5 / 3)) * 0.082 * (nrC4 + 0) +
    GeC4 * hC4v * (1 / 4)

/-- The loading tensor of the concrete snapshot. -/
def TijC4 : Mat3 := matDiv TuC4 TdC4

/-- The snapshot after `set_parameter_TZ`. -/
def sp4C4 : SP := { sp3C4 with B := 0, Tij := TijC4, Zij := 0 }

lemma hTZC4 : m1C4.set_parameter_TZ sp3C4 = sp4C4 := by
  simp only [Li2002.set_parameter_TZ,
    show sp3C4.elastic_flag1 = false from rfl,
    show sp3C4.elastic_flag2 = true from rfl, Bool.false_eq_true, if_false,
    true_or, or_true, if_true]
  rw [show sp3C4.nij = nijC4 from rfl, show sp3C4.rij = rijC4 from spC4_rij,
    show ddot nijC4 rijC4 = nrC4 from rfl,
    show sp3C4.Ge = GeC4 from rfl,
    show sp3C4.Ke = GeC4 * (5 / 3) from rfl,
    show sp3C4.D1 = (0.082 : ℝ) from rfl,
    show sp3C4.Kp1 = GeC4 * hC4v * (1 / 4) from rfl]
  simp only [sp4C4, TijC4, TuC4, TdC4, SP.mk.injEq]
  repeat' apply And.intro
  all_goals first | exact trivial | rfl | exact spC4_sij.symm | exact spC4_rij.symm

lemma hevalC4 : mC4.evalSP spC4 = (m1C4, sp4C4) := by
  simp only [Li2002.evalSP, hsmsC4]
  rw [hparamsC4, hnmC4, hTZC4]

lemma hGeC4_pos : 0 < GeC4 := by
  rw [GeC4]
  positivity

lemma hnrC4_pos : 0 < nrC4 := by
  rw [hnrC4]
  positivity

lemma hnrC4_le_one : nrC4 ≤ 1 := by
  rw [hnrC4]
  have h1 : (1 : ℝ) ≤ Real.sqrt (3 / 2) := by
    have := Real.sqrt_le_sqrt (by norm_num : (1 : ℝ) ≤ 3 / 2)
    rwa [Real.sqrt_one] at this
  exact (div_le_one (by positivity)).mpr h1

lemma hC4v_pos : 0 < hC4v := by
  rw [hC4v]
  norm_num

lemma hTdC4_pos : 0 < TdC4 := by
  have hs23 : Real.sqrt (2 / 3) ≤ 1 := by
    have := Real.sqrt_le_sqrt (by norm_num : (2 : ℝ) / 3 ≤ 1)
    rwa [Real.sqrt_one] at this
  have h1 : Real.sqrt (2 / 3) * (nrC4 + 0) ≤ 1 := by
    rw [add_zero]
    exact mul_le_one₀ hs23 hnrC4_pos.le hnrC4_le_one
  have hmid : Real.sqrt (2 / 3) * (GeC4 * (5 / 3)) * 0.082 * (nrC4 + 0) ≤
      GeC4 * (5 / 3) * 0.082 := by
    have h2 : GeC4 * (5 / 3) * 0.082 * (Real.sqrt (2 / 3) * (nrC4 + 0)) ≤
        GeC4 * (5 / 3) * 0.082 * 1 :=
      mul_le_mul_of_nonneg_left h1
        (mul_nonneg (mul_nonneg hGeC4_pos.le (by norm_num)) (by norm_num))
    calc Real.sqrt (2 / 3) * (GeC4 * (5 / 3)) * 0.082 * (nrC4 + 0)
        = GeC4 * (5 / 3) * 0.082 * (Real.sqrt (2 / 3) * (nrC4 + 0)) := by ring
      _ ≤ GeC4 * (5 / 3) * 0.082 * 1 := h2
      _ = GeC4 * (5 / 3) * 0.082 := by ring
  rw [TdC4]
  nlinarith [hmid, hGeC4_pos, mul_pos hGeC4_pos hC4v_pos]

lemma hTuC4_22 : TuC4 2 2 = -(GeC4 * (5 / 3) * nrC4) := by
  show (2 * GeC4) • nijC4 2 2 - (GeC4 * (5 / 3) * (nrC4 + 0)) * (1 : Mat3) 2 2 =
    -(GeC4 * (5 / 3) * nrC4)
  rw [show nijC4 2 2 = 1.5 * 0 / Real.sqrt (3 / 2) from rfl,
    show (1 : Mat3) 2 2 = 1 from rfl]
  simp only [zero_div, mul_zero, smul_eq_mul]
  ring

lemma hdL1C4 : ddot sp4C4.Tij sp4C4.dstrain = TuC4 2 2 / TdC4 := by
  show ddot TijC4 dstrC4 = TuC4 2 2 / TdC4
  simp only [ddot, Fin.sum_univ_three]
  rw [show dstrC4 0 0 = 0 from rfl, show dstrC4 0 1 = 0 from rfl,
    show dstrC4 0 2 = 0 from rfl, show dstrC4 1 0 = 0 from rfl,
    show dstrC4 1 1 = 0 from rfl, show dstrC4 1 2 = 0 from rfl,
    show dstrC4 2 0 = 0 from rfl, show dstrC4 2 1 = 0 from rfl,
    show dstrC4 2 2 = 1 from rfl]
  simp only [mul_zero, mul_one, zero_add, add_zero]
  rfl

/-- C4 counterexample: on this snapshot `update_parameters` strictly
decreases the committed loading index `L1` (the claim says no call ever
decreases it). The stress sits outside bounding surface 1 (`R = 1 > H1 ḡ`),
both mechanisms evaluate with mechanism 2 elastic (`p = beta`), and the
projected loading index `dL1 = Tij : dε = Tij 33 < 0` for a pure axial
strain increment, because `Tij 33 = -Ke nr / Td` with `Ke, nr, Td > 0`. -/
theorem C4_counterexample_L1_decreases :
    (mC4.update_parameters spC4).1.L1 < mC4.L1 := by
  simp only [Li2002.update_parameters, hevalC4,
    show sp4C4.elastic_flag1 = false from rfl,
    show sp4C4.elastic_flag2 = true from rfl, Bool.false_eq_true, if_false,
    if_true]
  rw [hdL1C4, hTuC4_22, show m1C4.L1 = (0 : ℝ) from rfl,
    show mC4.L1 = (0 : ℝ) from rfl]
  have hneg : -(GeC4 * (5 / 3) * nrC4) / TdC4 < 0 :=
    div_neg_of_neg_of_pos
      (neg_lt_zero.mpr
        (mul_pos (mul_pos hGeC4_pos (by norm_num : (0 : ℝ) < 5 / 3)) hnrC4_pos))
      hTdC4_pos
  linarith

/-! ## The isotropic compression run (C1) -/

namespace Li2002

/-- The inverse of the isotropic stiffness with Lamé parameters
`lam = mu` (which is what `nu = 0.25` gives): an explicit right inverse. -/
lemma stiff_mul_compl (mu : ℝ) (hmu : mu ≠ 0) :
    stiffTensor mu mu * stiffTensor (-(1 / (10 * mu))) (1 / (4 * mu)) = 1 := by
  ext pq kl
  obtain ⟨p, q⟩ := pq
  obtain ⟨k, l⟩ := kl
  rw [Matrix.mul_apply, Fintype.sum_prod_type]
  simp only [stiffTensor, Matrix.one_apply, Prod.mk.injEq, Fin.sum_univ_three]
  fin_cases p <;> fin_cases q <;> fin_cases k <;> fin_cases l <;>
    simp <;> field_simp <;> ring

lemma stiff_inv (mu : ℝ) (hmu : mu ≠ 0) :
    (stiffTensor mu mu)⁻¹ = stiffTensor (-(1 / (10 * mu))) (1 / (4 * mu)) :=
  Matrix.inv_eq_right_inv (stiff_mul_compl mu hmu)

/-- `stiffTensor` acts on a flattened matrix as `lam (tr X) I + 2 mu X`. -/
lemma stiff_mulVec (lam mu : ℝ) (X : Mat3) :
    vecToMat ((stiffTensor lam mu).mulVec (matToVec X)) =
      (lam * trace3 X) • (1 : Mat3) + (2 * mu) • X := by
  ext i j
  show (stiffTensor lam mu).mulVec (matToVec X) (i, j) = _
  rw [Matrix.mulVec, Matrix.dotProduct, Fintype.sum_prod_type]
  simp only [stiffTensor, matToVec, trace3, Fin.sum_univ_three, Matrix.add_apply,
    Matrix.smul_apply, Matrix.one_apply, smul_eq_mul]
  fin_cases i <;> fin_cases j <;> simp <;> ring

/-- The volumetric strain returned by the direct solver against an isotropic
stiffness with `lam = mu`: `tr dε = tr dσ / (5 mu)`. -/
lemma trace3_solve (mu : ℝ) (hmu : mu ≠ 0) (X : Mat3) :
    trace3 (solve_strain X (stiffTensor mu mu)) = trace3 X / (5 * mu) := by
  rw [solve_strain, stiff_inv mu hmu, stiff_mulVec]
  simp only [trace3, Matrix.add_apply, Matrix.smul_apply, Matrix.one_apply,
    smul_eq_mul]
  norm_num
  field_simp
  ring

/-- The shear modulus of `isotropic_compression_stiffness` at the default
constants, as a function of the void ratio and mean stress. -/
def GC1 (e p : ℝ) : ℝ :=
  125 * (2.97 - e) ^ 2 / (1 + e) * Real.sqrt (max p 100 * 101e3)

/-- `fn = 2(1+nu)/(3(1-2nu))` at `nu = 0.25`. -/
def fnC1 : ℝ := 2 * (1 + 0.25) / (3 * (1 - 2 * 0.25))

/-- The Lamé parameter `K2/fn` of `isotropic_compression_stiffness` at the
default constants. -/
def muC1 (e p : ℝ) : ℝ :=
  GC1 e p * fnC1 * 3.5 / (3.5 + Real.sqrt (2 / 3) * fnC1 * 1) / fnC1

lemma elastic_stiffness_nu25 (md : Li2002) (hnu : md.params.nu = 0.25) (G : ℝ) :
    md.elastic_stiffness G = stiffTensor G G := by
  rw [Li2002.elastic_stiffness, hnu]
  congr 1
  ring

lemma iso_stiff_eq (md : Li2002) (hpar : md.params = defaultParams) (e p : ℝ) :
    md.isotropic_compression_stiffness e p =
      stiffTensor (muC1 e p) (muC1 e p) := by
  simp only [Li2002.isotropic_compression_stiffness, Li2002.elastic_modulus, hpar]
  rw [elastic_stiffness_nu25 md (by rw [hpar]; rfl)]
  rfl

lemma GC1_lb (e p : ℝ) (he1 : 0.70 ≤ e) (he2 : e ≤ 0.75) :
    350 * 3178 ≤ GC1 e p := by
  have hA : (350 : ℝ) ≤ 125 * (2.97 - e) ^ 2 / (1 + e) := by
    rw [le_div_iff (by linarith : (0 : ℝ) < 1 + e)]
    nlinarith [sq_nonneg (e - 0.75)]
  have hS : (3178 : ℝ) ≤ Real.sqrt (max p 100 * 101e3) := by
    have h1 : ((3178 : ℝ)) ^ 2 ≤ max p 100 * 101e3 := by
      have h2 : (100 : ℝ) * 101e3 ≤ max p 100 * 101e3 :=
        mul_le_mul_of_nonneg_right (le_max_right p 100) (by norm_num)
      nlinarith [h2]
    calc (3178 : ℝ) = Real.sqrt (3178 ^ 2) := (Real.sqrt_sq (by norm_num)).symm
      _ ≤ _ := Real.sqrt_le_sqrt h1
  calc (350 : ℝ) * 3178
      ≤ (125 * (2.97 - e) ^ 2 / (1 + e)) * Real.sqrt (max p 100 * 101e3) :=
        mul_le_mul hA hS (by norm_num) (le_trans (by norm_num) hA)
    _ = GC1 e p := rfl

lemma fnC1_val : fnC1 = 5 / 3 := by
  rw [fnC1]
  norm_num

lemma muC1_eq (e p : ℝ) :
    muC1 e p = GC1 e p * 3.5 / (3.5 + Real.sqrt (2 / 3) * (5 / 3)) := by
  rw [muC1, fnC1_val]
  have hD : (0 : ℝ) < 3.5 + Real.sqrt (2 / 3) * (5 / 3) * 1 := by positivity
  field_simp
  ring

lemma muC1_lb (e p : ℝ) (he1 : 0.70 ≤ e) (he2 : e ≤ 0.75) :
    640000 ≤ muC1 e p := by
  rw [muC1_eq]
  have hs : Real.sqrt (2 / 3) ≤ 1 := by
    have := Real.sqrt_le_sqrt (by norm_num : (2 : ℝ) / 3 ≤ 1)
    rwa [Real.sqrt_one] at this
  have hD1 : (0 : ℝ) < 3.5 + Real.sqrt (2 / 3) * (5 / 3) := by positivity
  have hD2 : 3.5 + Real.sqrt (2 / 3) * (5 / 3) ≤ 31 / 6 := by nlinarith [hs]
  have hG := GC1_lb e p he1 he2
  have hGpos : (0 : ℝ) ≤ GC1 e p * 3.5 := by nlinarith
  calc (640000 : ℝ) ≤ (350 * 3178) * 3.5 / (31 / 6) := by norm_num
    _ ≤ GC1 e p * 3.5 / (31 / 6) :=
        (div_le_div_right (by norm_num)).mpr (by nlinarith [hG])
    _ ≤ GC1 e p * 3.5 / (3.5 + Real.sqrt (2 / 3) * (5 / 3)) :=
        div_le_div_of_nonneg_left hGpos hD1 hD2

lemma muC1_pos (e p : ℝ) (he1 : 0.70 ≤ e) (he2 : e ≤ 0.75) : 0 < muC1 e p :=
  lt_of_lt_of_le (by norm_num) (muC1_lb e p he1 he2)

/-- Per-step volumetric strain increment bounds at the run's void ratios. -/
lemma deltaC1_bounds (e p : ℝ) (he1 : 0.70 ≤ e) (he2 : e ≤ 0.75) :
    0 < 80 / (5 * muC1 e p) ∧ 80 / (5 * muC1 e p) ≤ 2.5e-5 := by
  have hmu := muC1_lb e p he1 he2
  have hmupos := muC1_pos e p he1 he2
  refine ⟨by positivity, ?_⟩
  rw [div_le_iff (by positivity)]
  nlinarith [hmu]

end Li2002

/-- The per-step stress increment of
`isotropic_compression(0.75, 20000, 1000)`: `dcp = 20`. -/
def dstC1 : Mat3 := Li2002.vector_to_matrix ![20, 40, 20, 0, 0, 0]

/-- The model after `k` iterations of the isotropic-compression loop. -/
def mC1run (k : ℕ) : Li2002 :=
  (Li2002.isoCompStep 0.75 dstC1)^[k] { Li2002.default with e := 0.75 }

lemma trace3_dstC1 : trace3 dstC1 = 80 := by
  rw [trace3, show dstC1 0 0 = 20 from rfl, show dstC1 1 1 = 40 from rfl,
    show dstC1 2 2 = 20 from rfl]
  norm_num

lemma trace3_add (A B : Mat3) : trace3 (A + B) = trace3 A + trace3 B := by
  simp only [trace3, Matrix.add_apply]
  ring

lemma isoCompStep_params (e0 : ℝ) (d : Mat3) (m : Li2002) :
    (Li2002.isoCompStep e0 d m).params = m.params := rfl

lemma isoCompStep_stress (e0 : ℝ) (d : Mat3) (m : Li2002) :
    (Li2002.isoCompStep e0 d m).stress = m.stress + d := rfl

lemma isoCompStep_strain (e0 : ℝ) (d : Mat3) (m : Li2002) :
    (Li2002.isoCompStep e0 d m).strain =
      m.strain + Li2002.solve_strain d
        (m.isotropic_compression_stiffness m.e
          (m.set_stress_variable m.stress).1) := rfl

lemma isoCompStep_e (e0 : ℝ) (d : Mat3) (m : Li2002) :
    (Li2002.isoCompStep e0 d m).e =
      e0 - trace3 (Li2002.isoCompStep e0 d m).strain * (1 + e0) := rfl

lemma mC1run_succ (n : ℕ) :
    mC1run (n + 1) = Li2002.isoCompStep 0.75 dstC1 (mC1run n) := by
  simp only [mC1run, Function.iterate_succ_apply']

lemma mC1run_params (k : ℕ) : (mC1run k).params = defaultParams := by
  induction k with
  | zero => rfl
  | succ n ih => rw [mC1run_succ, isoCompStep_params, ih]

lemma mC1run_stress (k : ℕ) : (mC1run k).stress = (k : ℝ) • dstC1 := by
  induction k with
  | zero =>
    show (0 : Mat3) = ((0 : ℕ) : ℝ) • dstC1
    simp
  | succ n ih =>
    rw [mC1run_succ, isoCompStep_stress, ih]
    push_cast
    rw [add_smul, one_smul]

/-- The loop invariant for `isotropic_compression(0.75, 20000, 1000)`: the
accumulated volumetric strain stays in `[0, k·2.5e-5]`, is positive after
the first step, and determines the current void ratio. -/
lemma mC1run_inv (k : ℕ) (hk : k ≤ 1000) :
    0 ≤ trace3 (mC1run k).strain ∧
    trace3 (mC1run k).strain ≤ (k : ℝ) * 2.5e-5 ∧
    (mC1run k).e = 0.75 - trace3 (mC1run k).strain * (1 + 0.75) ∧
    (1 ≤ k → 0 < trace3 (mC1run k).strain) := by
  induction k with
  | zero =>
    refine ⟨?_, ?_, ?_, ?_⟩
    · show 0 ≤ trace3 (0 : Mat3)
      simp [trace3]
    · show trace3 (0 : Mat3) ≤ ((0 : ℕ) : ℝ) * 2.5e-5
      simp [trace3]
    · show (0.75 : ℝ) = 0.75 - trace3 (0 : Mat3) * (1 + 0.75)
      simp [trace3]
    · omega
  | succ n ih =>
    have hn : n ≤ 1000 := by omega
    obtain ⟨h0, h1, h2, _⟩ := ih hn
    have hncast : ((n : ℝ)) ≤ 1000 := by exact_mod_cast hn
    have he2 : (mC1run n).e ≤ 0.75 := by rw [h2]; nlinarith [h0]
    have he1 : 0.70 ≤ (mC1run n).e := by rw [h2]; nlinarith [h1, hncast]
    have hmupos : 0 < Li2002.muC1 (mC1run n).e
        ((mC1run n).set_stress_variable (mC1run n).stress).1 :=
      Li2002.muC1_pos _ _ he1 he2
    have hδ := Li2002.deltaC1_bounds (mC1run n).e
      ((mC1run n).set_stress_variable (mC1run n).stress).1 he1 he2
    have hE := Li2002.iso_stiff_eq (mC1run n) (mC1run_params n) (mC1run n).e
      ((mC1run n).set_stress_variable (mC1run n).stress).1
    have htr : trace3 (mC1run (n + 1)).strain =
        trace3 (mC1run n).strain +
          80 / (5 * Li2002.muC1 (mC1run n).e
            ((mC1run n).set_stress_variable (mC1run n).stress).1) := by
      rw [mC1run_succ, isoCompStep_strain, trace3_add, hE,
        Li2002.trace3_solve _ hmupos.ne', trace3_dstC1]
    refine ⟨?_, ?_, ?_, ?_⟩
    · rw [htr]; linarith [hδ.1]
    · rw [htr]
      push_cast
      linarith [hδ.2]
    · rw [mC1run_succ, isoCompStep_e, ← mC1run_succ]
    · intro _
      rw [htr]
      linarith [hδ.1]

lemma hdstC1 : Li2002.vector_to_matrix
    ![(20000 : ℝ) / ((1000 : ℕ) : ℝ), 20000 / ((1000 : ℕ) : ℝ) * 2,
      20000 / ((1000 : ℕ) : ℝ), 0, 0, 0] = dstC1 := by
  rw [dstC1]
  congr 1
  funext i
  fin_cases i <;> norm_num

/-- `isotropic_compression(0.75, 20000, 1000)` is the 1000-fold iterate with
the concrete increment, followed by the strain reset. -/
lemma hrunC1 : Li2002.default.isotropic_compression 0.75 20000 1000 =
    { mC1run 1000 with strain := 0 } := by
  simp only [Li2002.isotropic_compression]
  rw [hdstC1]
  rfl

lemma set_stress_variable_p (md : Li2002) (s : Mat3) :
    (md.set_stress_variable s).1 = (s 0 0 + s 1 1 + s 2 2) / 3 := rfl

lemma strain_reset_stress (m : Li2002) :
    ({ m with strain := 0 } : Li2002).stress = m.stress := rfl

lemma strain_reset_e (m : Li2002) :
    ({ m with strain := 0 } : Li2002).e = m.e := rfl

lemma final_pC1 :
    ((Li2002.default.isotropic_compression 0.75 20000 1000).set_stress_variable
      (Li2002.default.isotropic_compression 0.75 20000 1000).stress).1 =
    80000 / 3 := by
  rw [hrunC1, set_stress_variable_p, strain_reset_stress, mC1run_stress]
  simp only [Matrix.smul_apply, show dstC1 0 0 = 20 from rfl,
    show dstC1 1 1 = 40 from rfl, show dstC1 2 2 = 20 from rfl, smul_eq_mul]
  norm_num

lemma final_eC1 :
    (Li2002.default.isotropic_compression 0.75 20000 1000).e < 0.75 := by
  rw [hrunC1, strain_reset_e]
  obtain ⟨h0, h1, h2, h3⟩ := mC1run_inv 1000 (le_refl _)
  have hpos := h3 (by norm_num)
  rw [h2]
  nlinarith [hpos]

/-- C1 counterexample: the run `isotropic_compression(e0=0.75,
compression_stress=20000, nstep=1000)` ends with mean stress `p = 80000/3 ≈
26667`, not `20000`: the per-step increment has diagonal `(dcp, 2 dcp, dcp)`,
so the accumulated trace is `4/3` of the target rather than equal to it, an
overshoot of `20000/3 > 2000`, far beyond any solver tolerance. -/
theorem C1_counterexample_final_p :
    ((Li2002.default.isotropic_compression 0.75 20000 1000).set_stress_variable
        (Li2002.default.isotropic_compression 0.75 20000 1000).stress).1 =
      80000 / 3 ∧
    ¬ |(80000 / 3 : ℝ) - 20000| ≤ 2000 :=
  ⟨final_pC1, by rw [abs_of_nonneg (by norm_num)]; norm_num⟩

/-- C1 (amended): the run `isotropic_compression(e0=0.75,
compression_stress=20000, nstep=1000)` terminates with void ratio strictly
below `e0 = 0.75` (each step solves a positive volumetric strain increment
against the positive-definite isotropic stiffness), and with final mean
stress exactly `4/3 * 20000`, not `20000`. -/
theorem C1_densification_and_final_p :
    (Li2002.default.isotropic_compression 0.75 20000 1000).e < 0.75 ∧
    ((Li2002.default.isotropic_compression 0.75 20000 1000).set_stress_variable
        (Li2002.default.isotropic_compression 0.75 20000 1000).stress).1 =
      4 / 3 * 20000 :=
  ⟨final_eC1, by rw [final_pC1]; norm_num⟩
